import Mathlib

/-!
Drift-correction session of `z-module.c`.

A shallow embedding of the drift-correction part of `src/z-module.c`
(`drift_correction`, its append helpers and the four signal handlers) and of
the path helpers `dirname` and `endswith` of the folder overview, and theorems
about them.

Modelling conventions

* C `int`/`gint` values are `Int`.  The handlers only ever compute
  `current_preview - 1` under the guard `current_preview > 0` and
  `current_preview + 1` under the guard
  `current_preview < selected_images_len - 1`, which cannot leave the range of
  `int`; the two places where the code may overflow (`len++` and `cap *= 2` in
  the append helpers) go through `int32`.
* `gdouble` is a type parameter `G`: the session only stores and copies
  coordinates, it never computes with them.
* A `malloc`ed array is a list of slots, `none` being a slot that was never
  written.  Reading outside the block or from a slot never written, and
  dereferencing a pointer that was never assigned, is undefined behaviour in C;
  the embedding returns `none` there.
* The pointer `current_preview_img` always has the form `&selected_imgs[k]`
  when it was assigned, so it is the index `k`; `none` is the pointer that was
  never assigned.
* Fields of a local `SelectedImage` that the code leaves unassigned
  (`x_selection`, `y_selection` in the append helpers) hold whatever the stack
  held; that content is an explicit argument (`stack`).
-/

namespace ZModule

/-! ## Data model (`struct SelectedImage`, `struct DriftCorrectionData`) -/

/-- The record `struct SelectedImage` (lines 487-492). -/
structure SelectedImage (G : Type) where
  container_id : Int
  img_id : Int
  x_selection : G
  y_selection : G
deriving DecidableEq, Repr

/-- The record `struct DriftCorrectionData` (lines 473-485).  The widget handle
`preview_img` is toolkit state and is left out.  `preview_container_id`,
`preview_datafield_id` and `current_preview_img` are not assigned by the
allocation code; `none` is "never assigned". -/
structure DriftCorrectionData (G : Type) where
  preview_container_id : Option Int
  preview_datafield_id : Option Int
  images : List (Option (SelectedImage G))
  images_len : Int
  images_cap : Int
  selected_imgs : List (Option (SelectedImage G))
  selected_images_len : Int
  selected_images_cap : Int
  current_preview : Int
  current_preview_img : Option Int
deriving DecidableEq, Repr

/-- Two's complement reduction of an integer to the range of a 32-bit `int`. -/
def int32 (x : Int) : Int := (x + 2147483648) % 4294967296 - 2147483648

/-- Read `buf[i]`: defined when `i` is inside the block and the slot was written. -/
def slot_read {α : Type} (buf : List (Option α)) (i : Int) : Option α :=
  if 0 ≤ i then (buf[i.toNat]?).join else none

/-- Write `buf[i] = v`: defined when `i` is inside the block. -/
def slot_write {α : Type} (buf : List (Option α)) (i : Int) (v : α) : Option (List (Option α)) :=
  if 0 ≤ i ∧ i.toNat < buf.length then some (buf.set i.toNat (some v)) else none

/-- The first `len` slots of the block exist and were written: the block
represents a sequence of `len` elements. -/
def slots_ok {α : Type} (buf : List (Option α)) (len : Int) : Bool :=
  decide (0 ≤ len) && decide (len.toNat ≤ buf.length) && (buf.take len.toNat).all Option.isSome

/-! ## Signal handlers -/

/-- The handler `on_prev_btn_click` (lines 742-778).  Lines 743-745 move the
cursor, lines 746-747 read `selected_imgs[current_preview]`, line 777 rebinds
`current_preview_img`.  Lines 750-775 build a preview widget and copy pixels
into the preview data field; they do not touch the session record. -/
def on_prev_btn_click {G : Type} (dc_data : DriftCorrectionData G) :
    Option (DriftCorrectionData G) :=
  let current_preview :=
    if dc_data.current_preview > 0 then dc_data.current_preview - 1 else dc_data.current_preview
  match slot_read dc_data.selected_imgs current_preview with
  | none => none
  | some _ =>
    some { dc_data with
      current_preview := current_preview
      current_preview_img := some current_preview }

/-- The handler `on_next_btn_click` (lines 780-825), as `on_prev_btn_click`. -/
def on_next_btn_click {G : Type} (dc_data : DriftCorrectionData G) :
    Option (DriftCorrectionData G) :=
  let current_preview :=
    if dc_data.current_preview < dc_data.selected_images_len - 1 then dc_data.current_preview + 1
    else dc_data.current_preview
  match slot_read dc_data.selected_imgs current_preview with
  | none => none
  | some _ =>
    some { dc_data with
      current_preview := current_preview
      current_preview_img := some current_preview }

/-- The handler `on_selection_finish` (lines 718-740).  `selection_coords` is the
array filled by `gwy_selection_get_data`; lines 737-739 store it through the
pointer `current_preview_img`. -/
def on_selection_finish {G : Type} (selection_coords : G × G) (dc_data : DriftCorrectionData G) :
    Option (DriftCorrectionData G) :=
  match dc_data.current_preview_img with
  | none => none
  | some p =>
    match slot_read dc_data.selected_imgs p with
    | none => none
    | some img =>
      match slot_write dc_data.selected_imgs p
          { img with x_selection := selection_coords.1, y_selection := selection_coords.2 } with
      | none => none
      | some buf => some { dc_data with selected_imgs := buf }

/-- Apply a handler `n` times in a row. -/
def click_times {G : Type} (handler : DriftCorrectionData G → Option (DriftCorrectionData G)) :
    Nat → DriftCorrectionData G → Option (DriftCorrectionData G)
  | 0, d => some d
  | n + 1, d => (handler d).bind (click_times handler n)

/-- The stored point of the image in slot `i`. -/
def stored_point {G : Type} (dc_data : DriftCorrectionData G) (i : Int) : Option (G × G) :=
  (slot_read dc_data.selected_imgs i).map (fun img => (img.x_selection, img.y_selection))

/-! ## The data browser and the library functions the module calls -/

/-- A container (file) of the data browser: its number and its channels, each a
data id with its data field, in the order they were added. -/
structure Container (DF : Type) where
  number : Int
  data : List (Int × DF)
deriving DecidableEq, Repr

/-- The Gwyddion functions whose results the module uses and whose code is not
part of the module: the number `gwy_app_data_browser_add` gives a new container,
the id `gwy_app_data_browser_add_data_field` gives a new channel, plane fitting
and levelling, and the two physical-to-pixel conversions. -/
structure Library (DF G : Type) where
  new_container_number : List (Container DF) → Int
  new_data_id : Container DF → Int
  gwy_data_field_fit_plane : DF → G × G × G
  gwy_data_field_plane_level : DF → G → G → G → DF
  gwy_data_field_rtoj : DF → G → G
  gwy_data_field_rtoi : DF → G → G

/-- The container with number `id`, as `gwy_app_data_browser_get` finds it
(`none` is the `NULL` it returns for an unknown number). -/
def gwy_app_data_browser_get {DF : Type} (browser : List (Container DF)) (id : Int) :
    Option (Container DF) :=
  browser.find? (fun c => c.number == id)

/-- The data field stored under the key of channel `id`. -/
def gwy_container_get_object {DF : Type} (container : Container DF) (id : Int) : Option DF :=
  (container.data.find? (fun e => e.1 == id)).map Prod.snd

/-- The `-1`-terminated array of channel ids of a container. -/
def gwy_app_data_browser_get_data_ids {DF : Type} (container : Container DF) : List Int :=
  container.data.map Prod.fst ++ [-1]

/-- Adding a data field to a container: the container afterwards and the new id. -/
def gwy_app_data_browser_add_data_field {DF G : Type} (lib : Library DF G) (df : DF)
    (container : Container DF) : Container DF × Int :=
  ({ container with data := container.data ++ [(lib.new_data_id container, df)] },
    lib.new_data_id container)

/-- The function `level_plane` (lines 177-182), on the value of the data field. -/
def level_plane {DF G : Type} (lib : Library DF G) (data_field : DF) : DF :=
  let abc := lib.gwy_data_field_fit_plane data_field
  lib.gwy_data_field_plane_level data_field abc.1 abc.2.1 abc.2.2

/-- Change the first element satisfying `p`. -/
def update_first {α : Type} (p : α → Bool) (f : α → α) : List α → List α
  | [] => []
  | a :: l => if p a then f a :: l else a :: update_first p f l

/-- The effect of `level_plane` on the object that the lookup of lines 531-533
returns: the data field of channel `img_id` in container `container_id` is
levelled in place. -/
def level_in_place {DF G : Type} (lib : Library DF G) (browser : List (Container DF))
    (container_id img_id : Int) : List (Container DF) :=
  update_first (fun c => c.number == container_id)
    (fun c => { c with
      data := update_first (fun e => e.1 == img_id) (fun e => (e.1, level_plane lib e.2)) c.data })
    browser

/-- The response codes of `GtkResponseType` the prompt can end with. -/
def GTK_RESPONSE_DELETE_EVENT : Int := -4

def GTK_RESPONSE_OK : Int := -5

def GTK_RESPONSE_CANCEL : Int := -6

/-- A row of the list store, columns `IMG_ID_COL` and `CONTAINER_ID_COL`; the
title and the thumbnail are display data. -/
structure StoreRow where
  img_id : Int
  container_id : Int
deriving DecidableEq, Repr

/-! ## Growable arrays -/

/-- The block `realloc(block, n * sizeof(SelectedImage))` returns: the old
content, cut or extended by unwritten slots to `n` elements.  A negative `n`
(an overflowed capacity) gives no usable slot. -/
def c_realloc {α : Type} (block : List (Option α)) (n : Int) : List (Option α) :=
  block.take n.toNat ++ List.replicate (n.toNat - block.length) none

/-- The function `dc_data_append_image` (lines 669-677). -/
def dc_data_append_image {G : Type} (dc_data : DriftCorrectionData G) (image : SelectedImage G) :
    Option (DriftCorrectionData G) :=
  match slot_write dc_data.images dc_data.images_len image with
  | none => none
  | some block =>
    let images_len := int32 (dc_data.images_len + 1)
    if images_len = dc_data.images_cap then
      some { dc_data with
        images := c_realloc block (int32 (dc_data.images_cap * 2))
        images_len := images_len
        images_cap := int32 (dc_data.images_cap * 2) }
    else
      some { dc_data with images := block, images_len := images_len }

/-- The callback `dc_data_append_selected_images` (lines 679-704) for the item at
row `tree_path` of the list store.  `stack` is the content of the two fields of
the local `selected_image` that the function does not assign. -/
def dc_data_append_selected_images {G : Type} (store : List StoreRow) (tree_path : Nat)
    (stack : G × G) (dc_data : DriftCorrectionData G) : Option (DriftCorrectionData G) :=
  match store[tree_path]? with
  | none => none
  | some row =>
    let selected_image : SelectedImage G :=
      { container_id := row.container_id, img_id := row.img_id,
        x_selection := stack.1, y_selection := stack.2 }
    match slot_write dc_data.selected_imgs dc_data.selected_images_len selected_image with
    | none => none
    | some block =>
      let selected_images_len := int32 (dc_data.selected_images_len + 1)
      if selected_images_len = dc_data.selected_images_cap then
        some { dc_data with
          selected_imgs := c_realloc block (int32 (dc_data.selected_images_cap * 2))
          selected_images_len := selected_images_len
          selected_images_cap := int32 (dc_data.selected_images_cap * 2) }
      else
        some { dc_data with selected_imgs := block, selected_images_len := selected_images_len }

/-- The loop of `setup_dc_data` (lines 710-715) over the array `data_ids` from
position `i` on; running off the array without meeting `-1` is undefined. -/
def setup_dc_data_loop {G : Type} (container_id : Int) (stack : Nat → G × G) :
    List Int → Nat → DriftCorrectionData G → Option (DriftCorrectionData G)
  | [], _, _ => none
  | id :: rest, i, dc_data =>
    if id = -1 then some dc_data
    else
      match dc_data_append_image dc_data
          { container_id := container_id, img_id := id,
            x_selection := (stack i).1, y_selection := (stack i).2 } with
      | none => none
      | some dc_data2 => setup_dc_data_loop container_id stack rest (i + 1) dc_data2

/-- The callback `setup_dc_data` (lines 706-716). -/
def setup_dc_data {DF G : Type} (container : Container DF) (stack : Nat → G × G)
    (drift_correction_data : DriftCorrectionData G) : Option (DriftCorrectionData G) :=
  setup_dc_data_loop container.number stack (gwy_app_data_browser_get_data_ids container) 0
    drift_correction_data

/-! ## The run handler and the event loop -/

/-- The loop of `on_run_btn_click` (lines 830-837): `k` iterations from index `i`;
each gives the pair of numbers that line 836 prints. -/
def on_run_loop {DF G : Type} (lib : Library DF G) (browser : List (Container DF))
    (dc_data : DriftCorrectionData G) : Nat → Int → Option (List (G × G))
  | 0, _ => some []
  | k + 1, i =>
    match slot_read dc_data.selected_imgs i with
    | none => none
    | some img =>
      match gwy_app_data_browser_get browser img.container_id with
      | none => none
      | some container =>
        match gwy_container_get_object container img.img_id with
        | none => none
        | some data_field =>
          match on_run_loop lib browser dc_data k (i + 1) with
          | none => none
          | some rest =>
            some ((lib.gwy_data_field_rtoj data_field img.x_selection,
              lib.gwy_data_field_rtoi data_field img.y_selection) :: rest)

/-- The handler `on_run_btn_click` (lines 827-838): the printed pairs, in order. -/
def on_run_btn_click {DF G : Type} (lib : Library DF G) (browser : List (Container DF))
    (dc_data : DriftCorrectionData G) : Option (List (G × G)) :=
  on_run_loop lib browser dc_data dc_data.selected_images_len.toNat 0

/-- The four operator actions that reach the session. -/
inductive Event (G : Type) where
  | previous : Event G
  | next : Event G
  | point_selected (selection_coords : G × G) : Event G
  | run : Event G
deriving DecidableEq, Repr

/-- Dispatch of one event to its handler; `run` prints and leaves the session
as it is. -/
def handle {DF G : Type} (lib : Library DF G) (browser : List (Container DF))
    (dc_data : DriftCorrectionData G) : Event G → Option (DriftCorrectionData G)
  | Event.previous => on_prev_btn_click dc_data
  | Event.next => on_next_btn_click dc_data
  | Event.point_selected selection_coords => on_selection_finish selection_coords dc_data
  | Event.run => (on_run_btn_click lib browser dc_data).map (fun _ => dc_data)

/-- Dispatch of a sequence of events, one after the other. -/
def handle_all {DF G : Type} (lib : Library DF G) (browser : List (Container DF)) :
    DriftCorrectionData G → List (Event G) → Option (DriftCorrectionData G)
  | dc_data, [] => some dc_data
  | dc_data, e :: es => (handle lib browser dc_data e).bind (fun d => handle_all lib browser d es)

/-! ## The command `drift_correction` -/

/-- The session record as lines 497-506 leave it: both arrays empty with
capacity 32 (the second block is sized with `images_cap`, as line 504 does),
the cursor at 0, the other fields not assigned. -/
def dc_data_new (G : Type) : DriftCorrectionData G :=
  { preview_container_id := none
    preview_datafield_id := none
    images := List.replicate 32 none
    images_len := 0
    images_cap := 32
    selected_imgs := List.replicate (32 : Int).toNat none
    selected_images_len := 0
    selected_images_cap := 32
    current_preview := 0
    current_preview_img := none }

/-- The call `gwy_app_data_browser_foreach(setup_dc_data, ...)` of line 509 over
the open containers, `j` being the position of the first one; `stack j` is the
stack content the `j`-th call meets. -/
def collect_images {DF G : Type} (stack : Nat → Nat → G × G) :
    List (Container DF) → Nat → DriftCorrectionData G → Option (DriftCorrectionData G)
  | [], _, dc_data => some dc_data
  | container :: rest, j, dc_data =>
    match setup_dc_data container (stack j) dc_data with
    | none => none
    | some dc_data2 => collect_images stack rest (j + 1) dc_data2

/-- The loop of lines 528-554: `k` iterations from index `i`.  Each looks the
image `images[i]` up, levels it in place and appends its row to the list
store. -/
def fill_store {DF G : Type} (lib : Library DF G) (dc_data : DriftCorrectionData G) :
    Nat → Int → List (Container DF) × List StoreRow → Option (List (Container DF) × List StoreRow)
  | 0, _, st => some st
  | k + 1, i, (browser, store) =>
    match slot_read dc_data.images i with
    | none => none
    | some image =>
      match gwy_app_data_browser_get browser image.container_id with
      | none => none
      | some container =>
        match gwy_container_get_object container image.img_id with
        | none => none
        | some _ =>
          fill_store lib dc_data k (i + 1)
            (level_in_place lib browser image.container_id image.img_id,
              store ++ [{ img_id := image.img_id, container_id := image.container_id }])

/-- The call `gtk_icon_view_selected_foreach` of line 579: the callback runs once
for each selected row, in the order the icon view visits them; `j` counts the
calls. -/
def selected_foreach {G : Type} (store : List StoreRow) (stack : Nat → G × G) :
    List Nat → Nat → DriftCorrectionData G → Option (DriftCorrectionData G)
  | [], _, dc_data => some dc_data
  | tree_path :: rest, j, dc_data =>
    match dc_data_append_selected_images store tree_path (stack j) dc_data with
    | none => none
    | some dc_data2 => selected_foreach store stack rest (j + 1) dc_data2

/-- Where the `switch` of lines 576-591 leaves the control. -/
inductive AfterPrompt (G : Type) where
  | returned : AfterPrompt G
  | goes_on (dc_data : DriftCorrectionData G) : AfterPrompt G
deriving DecidableEq, Repr

/-- The `switch` on the dialog response (lines 576-591).  `selected` are the rows
selected in the icon view when the dialog ends.  `GTK_RESPONSE_OK` appends them
and breaks, `GTK_RESPONSE_CANCEL` returns, and there is no `default` label: any
other response leaves the `switch` with the record as it was. -/
def prompt_switch {G : Type} (store : List StoreRow) (prompt_response : Int)
    (selected : List Nat) (stack : Nat → G × G) (dc_data : DriftCorrectionData G) :
    Option (AfterPrompt G) :=
  if prompt_response = GTK_RESPONSE_OK then
    (selected_foreach store stack selected 0 dc_data).map AfterPrompt.goes_on
  else if prompt_response = GTK_RESPONSE_CANCEL then
    some AfterPrompt.returned
  else
    some (AfterPrompt.goes_on dc_data)

/-- The loop of lines 604-613: `k` iterations from index `i`.  `dc_container` is
the working container, the last one of the browser. -/
def duplicate_loop {DF G : Type} (lib : Library DF G) (browser : List (Container DF))
    (dc_container_id : Int) :
    Nat → Int → Container DF × DriftCorrectionData G →
      Option (Container DF × DriftCorrectionData G)
  | 0, _, st => some st
  | k + 1, i, (dc_container, dc_data) =>
    match slot_read dc_data.selected_imgs i with
    | none => none
    | some img =>
      match gwy_app_data_browser_get (browser ++ [dc_container]) img.container_id with
      | none => none
      | some container =>
        match gwy_container_get_object container img.img_id with
        | none => none
        | some df =>
          let added := gwy_app_data_browser_add_data_field lib df dc_container
          match slot_write dc_data.selected_imgs i
              { img with img_id := added.2, container_id := dc_container_id } with
          | none => none
          | some block =>
            duplicate_loop lib browser dc_container_id k (i + 1)
              (added.1, { dc_data with selected_imgs := block })

/-- Lines 593-613 of `drift_correction`: the working container is created and
added to the browser, the first selected image is duplicated into it as the
preview data field, then every selected image is duplicated into it and its
entry rewritten.  The result is the browser and the session record. -/
def materialize {DF G : Type} (lib : Library DF G) (browser : List (Container DF))
    (dc_data : DriftCorrectionData G) :
    Option (List (Container DF) × DriftCorrectionData G) :=
  let dc_container_id := lib.new_container_number browser
  let dc_container : Container DF := { number := dc_container_id, data := [] }
  match slot_read dc_data.selected_imgs 0 with
  | none => none
  | some first =>
    match gwy_app_data_browser_get (browser ++ [dc_container]) first.container_id with
    | none => none
    | some first_img_container =>
      match gwy_container_get_object first_img_container first.img_id with
      | none => none
      | some first_df =>
        let added := gwy_app_data_browser_add_data_field lib first_df dc_container
        match duplicate_loop lib browser dc_container_id dc_data.selected_images_len.toNat 0
            (added.1, { dc_data with preview_datafield_id := some added.2 }) with
        | none => none
        | some (dc_container2, dc_data2) => some (browser ++ [dc_container2], dc_data2)

/-- How a call of `drift_correction` ends: by the `return` of line 590, or with
the session window open and the handlers connected (line 667). -/
inductive Outcome (DF G : Type) where
  | cancelled (browser : List (Container DF)) : Outcome DF G
  | session (browser : List (Container DF)) (dc_data : DriftCorrectionData G) : Outcome DF G
deriving DecidableEq, Repr

/-- The state in which line 573 shows the prompt: the snapshot of all open
images is taken, every one of them levelled and listed in the store. -/
def before_prompt {DF G : Type} (lib : Library DF G) (browser : List (Container DF))
    (stack_images : Nat → Nat → G × G) :
    Option (List (Container DF) × List StoreRow × DriftCorrectionData G) :=
  match collect_images stack_images browser 0 (dc_data_new G) with
  | none => none
  | some dc_data =>
    match fill_store lib dc_data dc_data.images_len.toNat 0 (browser, []) with
    | none => none
    | some (browser2, store) => some (browser2, store, dc_data)

/-- The command `drift_correction` (lines 495-667).  The operator's part is the
response of the dialog and the rows selected when it ends. -/
def drift_correction {DF G : Type} (lib : Library DF G) (browser : List (Container DF))
    (prompt_response : Int) (selected : List Nat)
    (stack_images : Nat → Nat → G × G) (stack_selected : Nat → G × G) :
    Option (Outcome DF G) :=
  match before_prompt lib browser stack_images with
  | none => none
  | some (browser2, store, dc_data) =>
    match prompt_switch store prompt_response selected stack_selected dc_data with
    | none => none
    | some AfterPrompt.returned => some (Outcome.cancelled browser2)
    | some (AfterPrompt.goes_on dc_data2) =>
      match materialize lib browser2 dc_data2 with
      | none => none
      | some (browser3, dc_data3) => some (Outcome.session browser3 dc_data3)

/-! ## A repository with three images, used to run the model -/

/-- A data field reduced to what the examples observe: the number of pixels per
physical unit along x and along y, and whether its plane was subtracted. -/
structure ExampleField where
  columns_per_unit : Int
  rows_per_unit : Int
  levelled : Bool
deriving DecidableEq, Repr

/-- A library for the examples: containers are numbered 1, 2, ... and channels
0, 1, ... in the order they are added, and the conversions multiply by the
resolution of the field. -/
def example_library : Library ExampleField Int :=
  { new_container_number := fun browser => browser.length + 1
    new_data_id := fun container => container.data.length
    gwy_data_field_fit_plane := fun _ => (0, 0, 0)
    gwy_data_field_plane_level := fun data_field _ _ _ => { data_field with levelled := true }
    gwy_data_field_rtoj := fun data_field x => x * data_field.columns_per_unit
    gwy_data_field_rtoi := fun data_field y => y * data_field.rows_per_unit }

/-- One open file with the three images "a", "b" and "c" (channels 0, 1, 2). -/
def example_browser : List (Container ExampleField) :=
  [{ number := 1
     data := [(0, { columns_per_unit := 2, rows_per_unit := 3, levelled := false }),
              (1, { columns_per_unit := 4, rows_per_unit := 4, levelled := false }),
              (2, { columns_per_unit := 5, rows_per_unit := 7, levelled := false })] }]

/-- The stack content the examples use for fields left unassigned. -/
def example_stack : Nat → Int × Int := fun _ => (0, 0)
/-- The browser after `drift_correction` on `example_browser` with "a" and "c"
selected: the three images levelled, and the working container (number 2) with
the preview field and the two duplicates. -/
def example_working_browser : List (Container ExampleField) :=
  [{ number := 1
     data := [(0, { columns_per_unit := 2, rows_per_unit := 3, levelled := true }),
              (1, { columns_per_unit := 4, rows_per_unit := 4, levelled := true }),
              (2, { columns_per_unit := 5, rows_per_unit := 7, levelled := true })] },
   { number := 2
     data := [(0, { columns_per_unit := 2, rows_per_unit := 3, levelled := true }),
              (1, { columns_per_unit := 2, rows_per_unit := 3, levelled := true }),
              (2, { columns_per_unit := 5, rows_per_unit := 7, levelled := true })] }]

/-- The session record `drift_correction` leaves on `example_browser` with "a"
and "c" selected. -/
def example_session : DriftCorrectionData Int :=
  { preview_container_id := none
    preview_datafield_id := some 0
    images :=
      [some { container_id := 1, img_id := 0, x_selection := 0, y_selection := 0 },
       some { container_id := 1, img_id := 1, x_selection := 0, y_selection := 0 },
       some { container_id := 1, img_id := 2, x_selection := 0, y_selection := 0 }]
        ++ List.replicate 29 none
    images_len := 3
    images_cap := 32
    selected_imgs :=
      [some { container_id := 2, img_id := 1, x_selection := 0, y_selection := 0 },
       some { container_id := 2, img_id := 2, x_selection := 0, y_selection := 0 }]
        ++ List.replicate 30 none
    selected_images_len := 2
    selected_images_cap := 32
    current_preview := 0
    current_preview_img := none }

/-! ## Resolving an entry of the selection -/

/-- The data field the two lookups of lines 605-608 (and 598-600, 831-833) find
for an entry: the container by its number, then the channel by its id. -/
def original_field {DF G : Type} (browser : List (Container DF)) (img : SelectedImage G) :
    Option DF :=
  match gwy_app_data_browser_get browser img.container_id with
  | none => none
  | some container => gwy_container_get_object container img.img_id

/-- Every one of the first `selected_images_len` entries of `selected_imgs`
names an image that is open in the browser. -/
def selection_resolves {DF G : Type} (browser : List (Container DF))
    (dc_data : DriftCorrectionData G) : Bool :=
  (dc_data.selected_imgs.take dc_data.selected_images_len.toNat).all
    (fun slot =>
      match slot with
      | none => false
      | some img => (original_field browser img).isSome)

/-- The example browser when the prompt is shown: the three images levelled. -/
def example_levelled_browser : List (Container ExampleField) :=
  [{ number := 1
     data := [(0, { columns_per_unit := 2, rows_per_unit := 3, levelled := true }),
              (1, { columns_per_unit := 4, rows_per_unit := 4, levelled := true }),
              (2, { columns_per_unit := 5, rows_per_unit := 7, levelled := true })] }]

/-- The session record after the prompt on `example_browser` was confirmed with
"a" and "c" selected, before line 593. -/
def example_selection : DriftCorrectionData Int :=
  { example_session with
    preview_datafield_id := none
    selected_imgs :=
      [some { container_id := 1, img_id := 0, x_selection := 0, y_selection := 0 },
       some { container_id := 1, img_id := 2, x_selection := 0, y_selection := 0 }]
        ++ List.replicate 30 none }

/-! ## The invariant of the growable arrays -/

/-- The invariant of a growable array `(block, len, cap)`: `0 ≤ len < cap`, the
block has `cap` slots, and the first `len` slots were written with elements
that satisfy `P`. -/
def array_inv {α : Type} (P : α → Bool) (block : List (Option α)) (len cap : Int) : Prop :=
  0 ≤ len ∧ len < cap ∧ block.length = cap.toNat ∧
    ∀ i : Nat, i < len.toNat → ∃ v, block[i]? = some (some v) ∧ P v = true

/-- A container with number `container_id` is open and the first such container
has a channel `img_id`: the two lookups of an image succeed. -/
def image_is_open {DF : Type} (browser : List (Container DF)) (container_id img_id : Int) : Bool :=
  match browser.find? (fun c => c.number == container_id) with
  | none => false
  | some c => (c.data.map Prod.fst).contains img_id

/-! ## Path helpers of the folder overview (`dirname`, `endswith`)

A C string is the list of its characters before the terminating NUL. -/

/-- The character `/`. -/
def fwd_slash : Char := Char.ofNat 47

/-- The character `\`. -/
def bck_slash : Char := Char.ofNat 92

/-- Scan for `strrchr`: `i` is the index of the head of `s`, `found` the last
match so far. -/
def strrchr_from : List Char → Char → Nat → Option Nat → Option Nat
  | [], _, _, found => found
  | x :: rest, c, i, found => strrchr_from rest c (i + 1) (if x = c then some i else found)

/-- The library function `strrchr(s, c)` for `c` other than NUL: the index of
the last occurrence of `c` in `s`; `none` is the `NULL` it returns when there
is none. -/
def strrchr (s : List Char) (c : Char) : Option Nat :=
  strrchr_from s c 0 none

/-- The comparison `p > q` of two pointers into the same string, `NULL` being
below every position. -/
def pointer_gt : Option Nat → Option Nat → Bool
  | none, _ => false
  | some _, none => true
  | some i, some j => decide (i > j)

/-- The function `dirname` (lines 390-418); the result is the string written to
`dir`, a buffer taken to be large enough. -/
def dirname (path : List Char) : List Char :=
  let len := path.length
  if len = 0 then
    ['.']
  else
    let last_fwd_slash := strrchr path fwd_slash
    let last_bck_slash := strrchr path bck_slash
    let last_slash :=
      if pointer_gt last_fwd_slash last_bck_slash then last_fwd_slash else last_bck_slash
    match last_slash with
    | none => ['.']
    | some i =>
      if i = 0 ∨ i = 1 then [bck_slash]
      else path.take i

/-- The function `endswith` (lines 444-453); `strcmp(...) == 0` is equality of
the two strings. -/
def endswith (str suffix : List Char) : Bool :=
  let str_len := str.length
  let suffix_len := suffix.length
  if str_len < suffix_len then false
  else decide (str.drop (str_len - suffix_len) = suffix)

/-- The suffix `".mul"` of line 356. -/
def mul_suffix : List Char := ['.', 'm', 'u', 'l']

/-- The directory entries that the loop of lines 354-370 of `folder_overview`
loads, `names` being the names `readdir` returns in turn. -/
def scanned_entries (names : List (List Char)) : List (List Char) :=
  names.filter (fun d_name => endswith d_name mul_suffix)

/-! ## Sequences of appends -/

/-- Appending the elements of a list, in order, with `dc_data_append_image`. -/
def append_images {G : Type} :
    List (SelectedImage G) → DriftCorrectionData G → Option (DriftCorrectionData G)
  | [], dc_data => some dc_data
  | image :: rest, dc_data =>
    match dc_data_append_image dc_data image with
    | none => none
    | some dc_data2 => append_images rest dc_data2

/-- The capacity after `n` appends as the doubling policy words it: 32 at the
start, doubled exactly when the length reaches the capacity, unchanged
otherwise. -/
def capacity_after : Nat → Int
  | 0 => 32
  | n + 1 =>
    if ((n + 1 : Nat) : Int) = capacity_after n then capacity_after n * 2 else capacity_after n

/-- The elements the loop of `setup_dc_data` appends for the ids `ids`, the
first in iteration `i`. -/
def loop_entries {G : Type} (container_id : Int) (stack : Nat → G × G) :
    List Int → Nat → List (SelectedImage G)
  | [], _ => []
  | id :: rest, i =>
    { container_id := container_id, img_id := id,
      x_selection := (stack i).1, y_selection := (stack i).2 }
      :: loop_entries container_id stack rest (i + 1)

/-- The elements `selected_foreach` appends for the rows `selected`, the first
in call `j`. -/
def selected_entries {G : Type} (store : List StoreRow) (stack : Nat → G × G) :
    List Nat → Nat → List (SelectedImage G)
  | [], _ => []
  | tree_path :: rest, j =>
    match store[tree_path]? with
    | none => []
    | some row =>
      { container_id := row.container_id, img_id := row.img_id,
        x_selection := (stack j).1, y_selection := (stack j).2 }
        :: selected_entries store stack rest (j + 1)

/-- The image references (container id, image id) of the first `len` elements
of an array. -/
def image_refs {G : Type} (block : List (Option (SelectedImage G))) (len : Int) :
    List (Int × Int) :=
  (block.take len.toNat).filterMap
    (fun slot => slot.map (fun img => (img.container_id, img.img_id)))

/-- The image references of all channels of all containers, container by
container in the order of the browser. -/
def open_images {DF : Type} (browser : List (Container DF)) : List (Int × Int) :=
  browser.flatMap (fun c => c.data.map (fun e => (c.number, e.1)))

/-- Two image references, used to run the append helpers. -/
def example_images : List (SelectedImage Int) :=
  [{ container_id := 1, img_id := 0, x_selection := 0, y_selection := 0 },
   { container_id := 1, img_id := 1, x_selection := 0, y_selection := 0 }]

/-- The list store of the prompt on `example_browser`. -/
def example_store : List StoreRow :=
  [{ img_id := 0, container_id := 1 }, { img_id := 1, container_id := 1 },
   { img_id := 2, container_id := 1 }]

/-- A container with number 7 and the channels 0 and 3. -/
def example_container : Container ExampleField :=
  { number := 7
    data := [(0, { columns_per_unit := 2, rows_per_unit := 3, levelled := false }),
             (3, { columns_per_unit := 4, rows_per_unit := 4, levelled := false })] }

/-! ## Basic facts about slots -/

theorem slot_read_of_ok {α : Type} (buf : List (Option α)) (len i : Int)
    (hok : slots_ok buf len = true) (h0 : 0 ≤ i) (h1 : i < len) :
    ∃ v, slot_read buf i = some v ∧ buf[i.toNat]? = some (some v) := by
  simp only [slots_ok, Bool.and_eq_true, decide_eq_true_eq, List.all_eq_true] at hok
  obtain ⟨⟨_, hlen⟩, hall⟩ := hok
  have hi : i.toNat < len.toNat := by omega
  have hib : i.toNat < buf.length := by omega
  have hmem : buf[i.toNat] ∈ buf.take len.toNat := by
    rw [List.mem_iff_getElem]
    refine ⟨i.toNat, ?_, ?_⟩
    · simp [List.length_take]; omega
    · simp [List.getElem_take]
  have hsome := hall _ hmem
  cases hv : buf[i.toNat] with
  | none => rw [hv] at hsome; simp at hsome
  | some v =>
    refine ⟨v, ?_, ?_⟩
    · simp [slot_read, h0, List.getElem?_eq_getElem hib, hv]
    · simp [List.getElem?_eq_getElem hib, hv]

theorem on_prev_btn_click_eq {G : Type} (d : DriftCorrectionData G)
    (hok : slots_ok d.selected_imgs d.selected_images_len = true)
    (h0 : 0 ≤ d.current_preview) (h1 : d.current_preview < d.selected_images_len) :
    on_prev_btn_click d = some { d with
      current_preview := max 0 (d.current_preview - 1)
      current_preview_img := some (max 0 (d.current_preview - 1)) } := by
  have hcp : (if d.current_preview > 0 then d.current_preview - 1 else d.current_preview)
      = max 0 (d.current_preview - 1) := by
    split_ifs with h
    · rw [max_eq_right (by omega)]
    · rw [max_eq_left (by omega)]; omega
  obtain ⟨v, hv, _⟩ := slot_read_of_ok d.selected_imgs d.selected_images_len
    (max 0 (d.current_preview - 1)) hok (le_max_left _ _) (by
      rcases max_cases 0 (d.current_preview - 1) with ⟨h, _⟩ | ⟨h, _⟩ <;> omega)
  simp only [on_prev_btn_click, hcp, hv]

theorem on_next_btn_click_eq {G : Type} (d : DriftCorrectionData G)
    (hok : slots_ok d.selected_imgs d.selected_images_len = true)
    (h0 : 0 ≤ d.current_preview) (h1 : d.current_preview < d.selected_images_len) :
    on_next_btn_click d = some { d with
      current_preview := min (d.selected_images_len - 1) (d.current_preview + 1)
      current_preview_img := some (min (d.selected_images_len - 1) (d.current_preview + 1)) } := by
  have hcp : (if d.current_preview < d.selected_images_len - 1 then d.current_preview + 1
      else d.current_preview) = min (d.selected_images_len - 1) (d.current_preview + 1) := by
    split_ifs with h
    · rw [min_eq_right (by omega)]
    · rw [min_eq_left (by omega)]; omega
  obtain ⟨v, hv, _⟩ := slot_read_of_ok d.selected_imgs d.selected_images_len
    (min (d.selected_images_len - 1) (d.current_preview + 1)) hok (by
      rcases min_cases (d.selected_images_len - 1) (d.current_preview + 1) with ⟨h, _⟩ | ⟨h, _⟩
        <;> omega) (by
      rcases min_cases (d.selected_images_len - 1) (d.current_preview + 1) with ⟨h, _⟩ | ⟨h, _⟩
        <;> omega)
  simp only [on_next_btn_click, hcp, hv]

/-! ## Navigation (C1, C2) -/

/-- C1: in a session with at least one selected image (the first
`selected_images_len` slots of `selected_imgs` hold them) and the cursor inside
the sequence, `on_prev_btn_click` returns and leaves the cursor at
`max 0 (cursor - 1)`, and `on_next_btn_click` returns and leaves it at
`min (len - 1) (cursor + 1)`. -/
theorem prev_next_cursor {G : Type} (d : DriftCorrectionData G)
    (hok : slots_ok d.selected_imgs d.selected_images_len = true)
    (_hlen : 1 ≤ d.selected_images_len)
    (h0 : 0 ≤ d.current_preview) (h1 : d.current_preview < d.selected_images_len) :
    (∃ d1, on_prev_btn_click d = some d1 ∧
      d1.current_preview = max 0 (d.current_preview - 1)) ∧
    (∃ d2, on_next_btn_click d = some d2 ∧
      d2.current_preview = min (d.selected_images_len - 1) (d.current_preview + 1)) :=
  ⟨⟨_, on_prev_btn_click_eq d hok h0 h1, rfl⟩, ⟨_, on_next_btn_click_eq d hok h0 h1, rfl⟩⟩

theorem click_prev_at_first {G : Type} (n : Nat) :
    ∀ d : DriftCorrectionData G, slots_ok d.selected_imgs d.selected_images_len = true →
      1 ≤ d.selected_images_len → d.current_preview = 0 →
      ∃ d1, click_times on_prev_btn_click n d = some d1 ∧ d1.current_preview = 0 := by
  induction n with
  | zero => intro d _ _ hc; exact ⟨d, rfl, hc⟩
  | succ n ih =>
    intro d hok hlen hc
    have hstep := on_prev_btn_click_eq d hok (by omega) (by omega)
    simp only [click_times, hstep, Option.some_bind]
    exact ih _ hok hlen (by simp [hc])

theorem click_next_at_last {G : Type} (n : Nat) :
    ∀ d : DriftCorrectionData G, slots_ok d.selected_imgs d.selected_images_len = true →
      1 ≤ d.selected_images_len → d.current_preview = d.selected_images_len - 1 →
      ∃ d1, click_times on_next_btn_click n d = some d1 ∧
        d1.current_preview = d.selected_images_len - 1 := by
  induction n with
  | zero => intro d _ _ hc; exact ⟨d, rfl, hc⟩
  | succ n ih =>
    intro d hok hlen hc
    have hstep := on_next_btn_click_eq d hok (by omega) (by omega)
    simp only [click_times, hstep, Option.some_bind]
    exact ih _ hok hlen (by simp [hc])

/-- C2: navigation clamps and does not wrap around.  In a session with at least
one selected image (the first `selected_images_len` slots of `selected_imgs`
hold them), `n` clicks on previous starting with the cursor at 0 return
and leave the cursor at 0, and `n` clicks on next starting with the cursor at
`len - 1` return and leave it at `len - 1`, for every `n`. -/
theorem navigation_clamps {G : Type} (d : DriftCorrectionData G)
    (hok : slots_ok d.selected_imgs d.selected_images_len = true)
    (hlen : 1 ≤ d.selected_images_len) (n : Nat) :
    (∃ d1, click_times on_prev_btn_click n { d with current_preview := 0 } = some d1 ∧
      d1.current_preview = 0) ∧
    (∃ d2, click_times on_next_btn_click n
        { d with current_preview := d.selected_images_len - 1 } = some d2 ∧
      d2.current_preview = d.selected_images_len - 1) :=
  ⟨click_prev_at_first n { d with current_preview := 0 } hok hlen rfl,
    click_next_at_last n { d with current_preview := d.selected_images_len - 1 } hok hlen rfl⟩

theorem slots_ok_iff {α : Type} (buf : List (Option α)) (len : Int) :
    slots_ok buf len = true ↔
      0 ≤ len ∧ ∀ i : Nat, i < len.toNat → ∃ v, buf[i]? = some (some v) := by
  constructor
  · intro hok
    have h0 : 0 ≤ len := by
      simp only [slots_ok, Bool.and_eq_true, decide_eq_true_eq] at hok
      exact hok.1.1
    refine ⟨h0, fun i hi => ?_⟩
    obtain ⟨v, _, hv⟩ := slot_read_of_ok buf len (i : Int) hok (by omega) (by omega)
    exact ⟨v, by simpa using hv⟩
  · rintro ⟨h0, hall⟩
    have hlen : len.toNat ≤ buf.length := by
      by_contra hcon
      obtain ⟨v, hv⟩ := hall buf.length (by omega)
      simp at hv
    simp only [slots_ok, Bool.and_eq_true, decide_eq_true_eq, List.all_eq_true]
    refine ⟨⟨h0, hlen⟩, fun x hx => ?_⟩
    obtain ⟨i, hi, rfl⟩ := List.mem_iff_getElem.1 hx
    simp only [List.length_take] at hi
    obtain ⟨v, hv⟩ := hall i (by omega)
    rw [List.getElem_take]
    rw [List.getElem?_eq_getElem (by omega)] at hv
    simp only [Option.some.injEq] at hv
    simp [hv]

theorem slots_ok_set {α : Type} (buf : List (Option α)) (len : Int) (i : Nat) (v : α)
    (hok : slots_ok buf len = true) : slots_ok (buf.set i (some v)) len = true := by
  rw [slots_ok_iff] at hok ⊢
  refine ⟨hok.1, fun j hj => ?_⟩
  obtain ⟨w, hw⟩ := hok.2 j hj
  by_cases hij : i = j
  · subst hij
    have hlt : i < buf.length := by
      by_contra hcon
      rw [List.getElem?_eq_none (by omega)] at hw
      simp at hw
    exact ⟨v, by simp [List.getElem?_set_self, hlt]⟩
  · exact ⟨w, by rw [List.getElem?_set_ne hij]; exact hw⟩
theorem on_selection_finish_some {G : Type} (P : G × G) (d d1 : DriftCorrectionData G)
    (h : on_selection_finish P d = some d1) :
    ∃ (p : Int) (img : SelectedImage G), d.current_preview_img = some p ∧ 0 ≤ p ∧
      p.toNat < d.selected_imgs.length ∧
      d.selected_imgs[p.toNat]? = some (some img) ∧
      d1 = { d with selected_imgs :=
        (d.selected_imgs.set p.toNat (some { img with x_selection := P.1, y_selection := P.2 })) } := by
  unfold on_selection_finish at h
  split at h
  · exact absurd h (by simp)
  · rename_i p hp
    split at h
    · exact absurd h (by simp)
    · rename_i img himg
      split at h
      · exact absurd h (by simp)
      · rename_i buf hbuf
        simp only [slot_write] at hbuf
        split_ifs at hbuf with hb
        simp only [slot_read] at himg
        split_ifs at himg
        rw [List.getElem?_eq_getElem hb.2] at himg
        have hslot : d.selected_imgs[p.toNat] = some img := by
          cases hx : d.selected_imgs[p.toNat] with
          | none => rw [hx] at himg; simp [Option.join] at himg
          | some a => rw [hx] at himg; simpa [Option.join] using himg
        refine ⟨p, img, hp, hb.1, hb.2, ?_, ?_⟩
        · rw [List.getElem?_eq_getElem hb.2, hslot]
        · simp only [Option.some.injEq] at hbuf h
          rw [← h, ← hbuf]

theorem on_selection_finish_eq {G : Type} (P : G × G) (d : DriftCorrectionData G) (p : Int)
    (hok : slots_ok d.selected_imgs d.selected_images_len = true)
    (hp : d.current_preview_img = some p) (h0 : 0 ≤ p) (h1 : p < d.selected_images_len) :
    ∃ img : SelectedImage G, d.selected_imgs[p.toNat]? = some (some img) ∧
      on_selection_finish P d = some { d with selected_imgs :=
        (d.selected_imgs.set p.toNat (some { img with x_selection := P.1, y_selection := P.2 })) } := by
  obtain ⟨img, himg, hget⟩ := slot_read_of_ok _ _ p hok h0 h1
  have hlt : p.toNat < d.selected_imgs.length := by
    by_contra hcon
    rw [List.getElem?_eq_none (by omega)] at hget
    simp at hget
  refine ⟨img, hget, ?_⟩
  simp [on_selection_finish, hp, himg, slot_write, h0, hlt]
theorem handle_preserves {DF G : Type} (lib : Library DF G) (browser : List (Container DF))
    (d d1 : DriftCorrectionData G) (e : Event G) (h : handle lib browser d e = some d1)
    (hok : slots_ok d.selected_imgs d.selected_images_len = true)
    (h0 : 0 ≤ d.current_preview) (h1 : d.current_preview < d.selected_images_len) :
    slots_ok d1.selected_imgs d1.selected_images_len = true ∧
      0 ≤ d1.current_preview ∧ d1.current_preview < d1.selected_images_len := by
  cases e with
  | previous =>
    simp only [handle, on_prev_btn_click_eq d hok h0 h1, Option.some.injEq] at h
    subst h
    refine ⟨hok, le_max_left _ _, ?_⟩
    show max 0 (d.current_preview - 1) < d.selected_images_len
    rcases max_cases 0 (d.current_preview - 1) with ⟨h, _⟩ | ⟨h, _⟩ <;> omega
  | next =>
    simp only [handle, on_next_btn_click_eq d hok h0 h1, Option.some.injEq] at h
    subst h
    refine ⟨hok, ?_, ?_⟩
    · show 0 ≤ min (d.selected_images_len - 1) (d.current_preview + 1)
      rcases min_cases (d.selected_images_len - 1) (d.current_preview + 1) with ⟨h, _⟩ | ⟨h, _⟩
        <;> omega
    · show min (d.selected_images_len - 1) (d.current_preview + 1) < d.selected_images_len
      rcases min_cases (d.selected_images_len - 1) (d.current_preview + 1) with ⟨h, _⟩ | ⟨h, _⟩
        <;> omega
  | point_selected P =>
    obtain ⟨p, img, _, _, _, _, rfl⟩ := on_selection_finish_some P d d1 h
    exact ⟨slots_ok_set _ _ _ _ hok, h0, h1⟩
  | run =>
    simp only [handle, Option.map_eq_some'] at h
    obtain ⟨_, _, rfl⟩ := h
    exact ⟨hok, h0, h1⟩

theorem handle_all_preserves {DF G : Type} (lib : Library DF G) (browser : List (Container DF))
    (evs : List (Event G)) :
    ∀ d d1 : DriftCorrectionData G, handle_all lib browser d evs = some d1 →
      slots_ok d.selected_imgs d.selected_images_len = true →
      0 ≤ d.current_preview → d.current_preview < d.selected_images_len →
      slots_ok d1.selected_imgs d1.selected_images_len = true ∧
        0 ≤ d1.current_preview ∧ d1.current_preview < d1.selected_images_len := by
  induction evs with
  | nil =>
    intro d d1 h hok h0 h1
    simp only [handle_all, Option.some.injEq] at h
    subst h
    exact ⟨hok, h0, h1⟩
  | cons e es ih =>
    intro d d1 h hok h0 h1
    simp only [handle_all, Option.bind_eq_some] at h
    obtain ⟨d2, h2, h3⟩ := h
    obtain ⟨hok2, h02, h12⟩ := handle_preserves lib browser d d2 e h2 hok h0 h1
    exact ih d2 d1 h3 hok2 h02 h12

/-- C3: from a session with at least one selected image (the first
`selected_images_len` slots of `selected_imgs` hold them, as in every session
`drift_correction` opens, see `drift_correction_confirmed`) and the cursor at 0,
every state reached by handling a finite sequence of the events previous, next,
point-selected and run has `0 ≤ cursor < len`; there the element
`selected_imgs[current_preview]` exists, and the reads of
`selected_imgs[current_preview]` in both navigation handlers are in bounds (the
handlers return). -/
theorem cursor_invariant_reachable {DF G : Type} (lib : Library DF G)
    (browser : List (Container DF)) (d0 d : DriftCorrectionData G) (evs : List (Event G))
    (hok : slots_ok d0.selected_imgs d0.selected_images_len = true)
    (hc : d0.current_preview = 0) (hlen : 1 ≤ d0.selected_images_len)
    (hrun : handle_all lib browser d0 evs = some d) :
    (0 ≤ d.current_preview ∧ d.current_preview < d.selected_images_len) ∧
      (slot_read d.selected_imgs d.current_preview).isSome = true ∧
      (on_prev_btn_click d).isSome = true ∧ (on_next_btn_click d).isSome = true := by
  obtain ⟨hok1, h0, h1⟩ :=
    handle_all_preserves lib browser evs d0 d hrun hok (by omega) (by omega)
  refine ⟨⟨h0, h1⟩, ?_, ?_, ?_⟩
  · obtain ⟨v, hv, _⟩ := slot_read_of_ok _ _ _ hok1 h0 h1
    simp [hv]
  · simp [on_prev_btn_click_eq d hok1 h0 h1]
  · simp [on_next_btn_click_eq d hok1 h0 h1]

/-- C4: point placement is last-write-wins.  In a session whose cursor is inside
the sequence of selected images and whose active image is
`selected_imgs[cursor]`, handling point-selected with `P1` and then with `P2`
returns, gives the same session as handling `P2` alone, and the stored point of
the image at the cursor is `P2`. -/
theorem point_last_write_wins {G : Type} (d : DriftCorrectionData G) (P1 P2 : G × G)
    (hok : slots_ok d.selected_imgs d.selected_images_len = true)
    (h0 : 0 ≤ d.current_preview) (h1 : d.current_preview < d.selected_images_len)
    (hact : d.current_preview_img = some d.current_preview) :
    ∃ d2, (on_selection_finish P1 d).bind (on_selection_finish P2) = some d2 ∧
      on_selection_finish P2 d = some d2 ∧
      stored_point d2 d.current_preview = some P2 := by
  obtain ⟨img, himg, hP1⟩ := on_selection_finish_eq P1 d _ hok hact h0 h1
  obtain ⟨img2, himg2, hP2⟩ := on_selection_finish_eq P2 d _ hok hact h0 h1
  have hlt : d.current_preview.toNat < d.selected_imgs.length := by
    by_contra hcon
    rw [List.getElem?_eq_none (by omega)] at himg
    simp at himg
  obtain ⟨img3, himg3, hP12⟩ := on_selection_finish_eq P2
    { d with selected_imgs := (d.selected_imgs.set d.current_preview.toNat
        (some { img with x_selection := P1.1, y_selection := P1.2 })) }
    d.current_preview (slots_ok_set _ _ _ _ hok) hact h0 h1
  simp only [List.getElem?_set_self hlt, Option.some.injEq] at himg3
  have h23 : img2 = img := by
    rw [himg] at himg2
    simpa using himg2.symm
  subst h23
  subst himg3
  refine ⟨_, ?_, hP2, ?_⟩
  · rw [hP1, Option.some_bind, hP12]
    simp only [List.set_set]
  · simp [stored_point, slot_read, h0, List.getElem?_set_self hlt, Option.join]

theorem drift_correction_example :
    drift_correction example_library example_browser GTK_RESPONSE_OK [0, 2]
      (fun _ => example_stack) example_stack
      = some (Outcome.session example_working_browser example_session) := by
  decide

theorem prev_next_cursor_witness :
    (∃ d1, on_prev_btn_click example_session = some d1 ∧
      d1.current_preview = max 0 (example_session.current_preview - 1)) ∧
    (∃ d2, on_next_btn_click example_session = some d2 ∧
      d2.current_preview =
        min (example_session.selected_images_len - 1) (example_session.current_preview + 1)) :=
  prev_next_cursor example_session (by decide) (by decide) (by decide) (by decide)

theorem navigation_clamps_witness :
    (∃ d1, click_times on_prev_btn_click 5 { example_session with current_preview := 0 }
        = some d1 ∧ d1.current_preview = 0) ∧
    (∃ d2, click_times on_next_btn_click 5
        { example_session with current_preview := example_session.selected_images_len - 1 }
        = some d2 ∧
      d2.current_preview = example_session.selected_images_len - 1) :=
  navigation_clamps example_session (by decide) (by decide) 5

theorem cursor_invariant_reachable_witness :
    ∃ d, handle_all example_library example_working_browser example_session
        [Event.next, Event.point_selected (5, 5), Event.next, Event.run, Event.previous] = some d ∧
      (0 ≤ d.current_preview ∧ d.current_preview < d.selected_images_len) ∧
      (slot_read d.selected_imgs d.current_preview).isSome = true ∧
      (on_prev_btn_click d).isSome = true ∧ (on_next_btn_click d).isSome = true :=
  ⟨_, rfl, cursor_invariant_reachable example_library example_working_browser example_session _
    [Event.next, Event.point_selected (5, 5), Event.next, Event.run, Event.previous]
    (by decide) (by decide) (by decide) rfl⟩

/-! ## The pointer `current_preview_img` is not assigned by `drift_correction` -/

theorem dc_data_append_image_pointer {G : Type} (d d1 : DriftCorrectionData G)
    (image : SelectedImage G) (h : dc_data_append_image d image = some d1) :
    d1.current_preview = d.current_preview ∧ d1.current_preview_img = d.current_preview_img := by
  unfold dc_data_append_image at h
  split at h
  · exact absurd h (by simp)
  · dsimp only at h
    split_ifs at h <;> (simp only [Option.some.injEq] at h; subst h; exact ⟨rfl, rfl⟩)

theorem dc_data_append_selected_images_pointer {G : Type} (store : List StoreRow)
    (tree_path : Nat) (stack : G × G) (d d1 : DriftCorrectionData G)
    (h : dc_data_append_selected_images store tree_path stack d = some d1) :
    d1.current_preview = d.current_preview ∧ d1.current_preview_img = d.current_preview_img := by
  unfold dc_data_append_selected_images at h
  split at h
  · exact absurd h (by simp)
  · dsimp only at h
    split at h
    · exact absurd h (by simp)
    · split_ifs at h <;> (simp only [Option.some.injEq] at h; subst h; exact ⟨rfl, rfl⟩)

theorem setup_dc_data_loop_pointer {G : Type} (container_id : Int) (stack : Nat → G × G)
    (ids : List Int) :
    ∀ (i : Nat) (d d1 : DriftCorrectionData G),
      setup_dc_data_loop container_id stack ids i d = some d1 →
      d1.current_preview = d.current_preview ∧
        d1.current_preview_img = d.current_preview_img := by
  induction ids with
  | nil => intro i d d1 h; simp [setup_dc_data_loop] at h
  | cons id rest ih =>
    intro i d d1 h
    simp only [setup_dc_data_loop] at h
    split_ifs at h
    · simp only [Option.some.injEq] at h; subst h; exact ⟨rfl, rfl⟩
    · split at h
      · exact absurd h (by simp)
      · rename_i d2 h2
        obtain ⟨ha, hb⟩ := dc_data_append_image_pointer _ _ _ h2
        obtain ⟨hc, hd⟩ := ih _ _ _ h
        exact ⟨hc.trans ha, hd.trans hb⟩

theorem collect_images_pointer {DF G : Type} (stack : Nat → Nat → G × G)
    (browser : List (Container DF)) :
    ∀ (j : Nat) (d d1 : DriftCorrectionData G), collect_images stack browser j d = some d1 →
      d1.current_preview = d.current_preview ∧
        d1.current_preview_img = d.current_preview_img := by
  induction browser with
  | nil => intro j d d1 h; simp only [collect_images, Option.some.injEq] at h; subst h; exact ⟨rfl, rfl⟩
  | cons c rest ih =>
    intro j d d1 h
    simp only [collect_images] at h
    split at h
    · exact absurd h (by simp)
    · rename_i d2 h2
      obtain ⟨ha, hb⟩ := setup_dc_data_loop_pointer _ _ _ _ _ _ h2
      obtain ⟨hc, hd⟩ := ih _ _ _ h
      exact ⟨hc.trans ha, hd.trans hb⟩

theorem selected_foreach_pointer {G : Type} (store : List StoreRow) (stack : Nat → G × G)
    (selected : List Nat) :
    ∀ (j : Nat) (d d1 : DriftCorrectionData G), selected_foreach store stack selected j d = some d1 →
      d1.current_preview = d.current_preview ∧
        d1.current_preview_img = d.current_preview_img := by
  induction selected with
  | nil => intro j d d1 h; simp only [selected_foreach, Option.some.injEq] at h; subst h; exact ⟨rfl, rfl⟩
  | cons t rest ih =>
    intro j d d1 h
    simp only [selected_foreach] at h
    split at h
    · exact absurd h (by simp)
    · rename_i d2 h2
      obtain ⟨ha, hb⟩ := dc_data_append_selected_images_pointer _ _ _ _ _ h2
      obtain ⟨hc, hd⟩ := ih _ _ _ h
      exact ⟨hc.trans ha, hd.trans hb⟩

theorem prompt_switch_pointer {G : Type} (store : List StoreRow) (prompt_response : Int)
    (selected : List Nat) (stack : Nat → G × G) (d d1 : DriftCorrectionData G)
    (h : prompt_switch store prompt_response selected stack d = some (AfterPrompt.goes_on d1)) :
    d1.current_preview = d.current_preview ∧ d1.current_preview_img = d.current_preview_img := by
  unfold prompt_switch at h
  split_ifs at h
  · simp only [Option.map_eq_some', AfterPrompt.goes_on.injEq] at h
    obtain ⟨d2, h2, rfl⟩ := h
    exact selected_foreach_pointer _ _ _ _ _ _ h2
  · simp at h
  · simp only [Option.some.injEq, AfterPrompt.goes_on.injEq] at h
    subst h; exact ⟨rfl, rfl⟩

theorem duplicate_loop_pointer {DF G : Type} (lib : Library DF G) (browser : List (Container DF))
    (dc_container_id : Int) (k : Nat) :
    ∀ (i : Int) (c c1 : Container DF) (d d1 : DriftCorrectionData G),
      duplicate_loop lib browser dc_container_id k i (c, d) = some (c1, d1) →
      d1.current_preview = d.current_preview ∧
        d1.current_preview_img = d.current_preview_img := by
  induction k with
  | zero =>
    intro i c c1 d d1 h
    simp only [duplicate_loop, Option.some.injEq, Prod.mk.injEq] at h
    obtain ⟨_, rfl⟩ := h
    exact ⟨rfl, rfl⟩
  | succ k ih =>
    intro i c c1 d d1 h
    simp only [duplicate_loop] at h
    split at h
    · exact absurd h (by simp)
    · split at h
      · exact absurd h (by simp)
      · split at h
        · exact absurd h (by simp)
        · split at h
          · exact absurd h (by simp)
          · have hrec := ih _ _ _ _ _ h
            exact hrec

theorem materialize_pointer {DF G : Type} (lib : Library DF G) (browser b1 : List (Container DF))
    (d d1 : DriftCorrectionData G) (h : materialize lib browser d = some (b1, d1)) :
    d1.current_preview = d.current_preview ∧ d1.current_preview_img = d.current_preview_img := by
  unfold materialize at h
  simp only at h
  split at h
  · exact absurd h (by simp)
  · split at h
    · exact absurd h (by simp)
    · split at h
      · exact absurd h (by simp)
      · split at h
        · exact absurd h (by simp)
        · rename_i c2 d2 h2
          simp only [Option.some.injEq, Prod.mk.injEq] at h
          obtain ⟨_, rfl⟩ := h
          have hrec := duplicate_loop_pointer _ _ _ _ _ _ _ _ _ h2
          exact hrec

theorem drift_correction_pointer {DF G : Type} (lib : Library DF G)
    (browser b : List (Container DF)) (prompt_response : Int) (selected : List Nat)
    (stack_images : Nat → Nat → G × G) (stack_selected : Nat → G × G)
    (d : DriftCorrectionData G)
    (h : drift_correction lib browser prompt_response selected stack_images stack_selected
      = some (Outcome.session b d)) :
    d.current_preview = 0 ∧ d.current_preview_img = none := by
  unfold drift_correction at h
  split at h
  · exact absurd h (by simp)
  · rename_i b2 store d2 hbefore
    unfold before_prompt at hbefore
    split at hbefore
    · exact absurd hbefore (by simp)
    · rename_i d3 h3
      split at hbefore
      · exact absurd hbefore (by simp)
      · simp only [Option.some.injEq, Prod.mk.injEq] at hbefore
        obtain ⟨_, _, rfl⟩ := hbefore
        obtain ⟨ha, hb⟩ := collect_images_pointer _ _ _ _ _ h3
        split at h
        · exact absurd h (by simp)
        · simp at h
        · rename_i d4 h4
          obtain ⟨hc, hd⟩ := prompt_switch_pointer _ _ _ _ _ _ h4
          split at h
          · exact absurd h (by simp)
          · rename_i b5 d5 h5
            simp only [Option.some.injEq, Outcome.session.injEq] at h
            obtain ⟨_, rfl⟩ := h
            obtain ⟨he, hf⟩ := materialize_pointer _ _ _ _ _ h5
            exact ⟨by rw [he, hc, ha]; rfl, by rw [hf, hd, hb]; rfl⟩

/-! ## Point placement in a session whose active image is the one at the cursor -/

theorem point_selected_frame {G : Type} (P : G × G) (d : DriftCorrectionData G)
    (hok : slots_ok d.selected_imgs d.selected_images_len = true)
    (h0 : 0 ≤ d.current_preview) (h1 : d.current_preview < d.selected_images_len)
    (hact : d.current_preview_img = some d.current_preview) :
    ∃ d1, on_selection_finish P d = some d1 ∧
      stored_point d1 d.current_preview = some P ∧
      (∀ j : Int, j ≠ d.current_preview →
        slot_read d1.selected_imgs j = slot_read d.selected_imgs j) ∧
      d1.current_preview = d.current_preview ∧
      d1.selected_images_len = d.selected_images_len ∧
      d1.current_preview_img = d.current_preview_img ∧
      slots_ok d1.selected_imgs d1.selected_images_len = true := by
  obtain ⟨img, himg, hP⟩ := on_selection_finish_eq P d _ hok hact h0 h1
  have hlt : d.current_preview.toNat < d.selected_imgs.length := by
    by_contra hcon
    rw [List.getElem?_eq_none (by omega)] at himg
    simp at himg
  refine ⟨_, hP, ?_, ?_, rfl, rfl, rfl, slots_ok_set _ _ _ _ hok⟩
  · simp [stored_point, slot_read, h0, List.getElem?_set_self hlt, Option.join]
  · intro j hj
    simp only [slot_read]
    split_ifs with hj0
    · rw [List.getElem?_set_ne (by omega)]
    · rfl

theorem per_image_when_active {G : Type} (d : DriftCorrectionData G) (PA PB : G × G)
    (hok : slots_ok d.selected_imgs d.selected_images_len = true)
    (h0 : 0 ≤ d.current_preview) (h1 : d.current_preview + 1 < d.selected_images_len)
    (hact : d.current_preview_img = some d.current_preview) :
    ∃ d4, (((on_selection_finish PA d).bind on_next_btn_click).bind
        (on_selection_finish PB)).bind on_prev_btn_click = some d4 ∧
      d4.current_preview = d.current_preview ∧
      stored_point d4 d.current_preview = some PA ∧
      stored_point d4 (d.current_preview + 1) = some PB := by
  obtain ⟨d1, hd1, hpa, _, hc1, hl1, hp1, hok1⟩ :=
    point_selected_frame PA d hok h0 (by omega) hact
  have hnext := on_next_btn_click_eq d1 hok1 (by omega) (by omega)
  have hmin : min (d1.selected_images_len - 1) (d1.current_preview + 1) = d.current_preview + 1 := by
    rw [min_eq_right (by omega), hc1]
  rw [hmin] at hnext
  obtain ⟨d3, hd3, hpb, hframe, hc3, hl3, _, hok3⟩ :=
    point_selected_frame PB
      { d1 with current_preview := d.current_preview + 1
                current_preview_img := some (d.current_preview + 1) }
      hok1 (by show 0 ≤ d.current_preview + 1; omega)
      (by show d.current_preview + 1 < d1.selected_images_len; omega) rfl
  have hc3' : d3.current_preview = d.current_preview + 1 := hc3
  have hl3' : d3.selected_images_len = d1.selected_images_len := hl3
  have hprev := on_prev_btn_click_eq d3 hok3 (by omega) (by omega)
  have hmax : max 0 (d3.current_preview - 1) = d.current_preview := by
    rw [max_eq_right (by omega), hc3']; omega
  rw [hmax] at hprev
  refine ⟨{ d3 with current_preview := d.current_preview,
                        current_preview_img := some d.current_preview }, ?_, rfl, ?_, ?_⟩
  · rw [hd1, Option.some_bind, hnext, Option.some_bind, hd3, Option.some_bind, hprev]
  · have hsame := hframe d.current_preview (by show d.current_preview ≠ d.current_preview + 1; omega)
    simp only [stored_point] at hpa ⊢
    rw [hsame]; exact hpa
  · exact hpb
theorem point_last_write_wins_witness :
    ∃ d2, (on_selection_finish (10, 20) { example_session with current_preview_img := some 0 }).bind
        (on_selection_finish (5, 5)) = some d2 ∧
      on_selection_finish (5, 5) { example_session with current_preview_img := some 0 } = some d2 ∧
      stored_point d2 0 = some (5, 5) :=
  point_last_write_wins { example_session with current_preview_img := some 0 } (10, 20) (5, 5)
    (by decide) (by decide) (by decide) rfl

/-- C5 (the code does not do it): in the session `drift_correction` leaves for
the images "a" and "c" (cursor 0, two selected images), the pointer
`current_preview_img` was never assigned, so the point-selected event for "a"
is a store through that pointer and nothing is recorded: the scenario place
`(10, 20)`, next, place `(5, 5)`, previous has no defined result.  After one
click on previous the same scenario records both points
(`per_image_when_active`). -/
theorem per_image_fresh_session :
    drift_correction example_library example_browser GTK_RESPONSE_OK [0, 2]
        (fun _ => example_stack) example_stack
      = some (Outcome.session example_working_browser example_session) ∧
    example_session.current_preview = 0 ∧
    example_session.selected_images_len = 2 ∧
    example_session.current_preview_img = none ∧
    on_selection_finish (10, 20) example_session = none ∧
    (((on_selection_finish (10, 20) example_session).bind on_next_btn_click).bind
      (on_selection_finish (5, 5))).bind on_prev_btn_click = none ∧
    ∃ d0 d4, on_prev_btn_click example_session = some d0 ∧
      (((on_selection_finish (10, 20) d0).bind on_next_btn_click).bind
        (on_selection_finish (5, 5))).bind on_prev_btn_click = some d4 ∧
      stored_point d4 0 = some (10, 20) ∧ stored_point d4 1 = some (5, 5) := by
  refine ⟨drift_correction_example, rfl, rfl, rfl, rfl, rfl, _, _, rfl, rfl, ?_, ?_⟩ <;> decide

/-- C6 (the code does not do it): `drift_correction` on the repository with the
images "a", "b", "c" and the selection of "a" and "c" leaves a session with
cursor 0 whose pointer `current_preview_img` was never assigned.  The
point-selected event with `(10, 20)` is a store through that pointer, so the
sequence point-selected, next, point-selected `(5, 5)`, run has no defined
result and the point is not recorded on `selected_imgs[0]`.  With a click on
previous in front, the run prints the two pairs the claim describes. -/
theorem end_to_end_fresh_session :
    drift_correction example_library example_browser GTK_RESPONSE_OK [0, 2]
        (fun _ => example_stack) example_stack
      = some (Outcome.session example_working_browser example_session) ∧
    handle_all example_library example_working_browser example_session
      [Event.point_selected (10, 20)] = none ∧
    handle_all example_library example_working_browser example_session
      [Event.point_selected (10, 20), Event.next, Event.point_selected (5, 5), Event.run] = none ∧
    ∃ d, handle_all example_library example_working_browser example_session
        [Event.previous, Event.point_selected (10, 20), Event.next, Event.point_selected (5, 5),
          Event.run] = some d ∧
      on_run_btn_click example_library example_working_browser d = some [(20, 60), (25, 35)] := by
  refine ⟨drift_correction_example, rfl, rfl, _, rfl, ?_⟩
  decide

/-! ## Materialization (C7, C8) -/

theorem original_field_append {DF G : Type} (browser : List (Container DF)) (c : Container DF)
    (img : SelectedImage G) (df : DF) (h : original_field browser img = some df) :
    original_field (browser ++ [c]) img = some df := by
  unfold original_field at h ⊢
  unfold gwy_app_data_browser_get at h ⊢
  rw [List.find?_append]
  cases hf : List.find? (fun c => c.number == img.container_id) browser with
  | none => rw [hf] at h; simp at h
  | some c0 => rw [hf] at h; simpa using h

theorem slot_read_cast {α : Type} (buf : List (Option α)) (m : Nat) (v : α)
    (h : buf[m]? = some (some v)) : slot_read buf (m : Int) = some v := by
  simp [slot_read, h]

theorem slot_write_cast {α : Type} (buf : List (Option α)) (m : Nat) (v w : α)
    (h : buf[m]? = some (some v)) :
    slot_write buf (m : Int) w = some (buf.set m (some w)) := by
  have hlt : m < buf.length := by
    by_contra hcon
    rw [List.getElem?_eq_none (by omega)] at h
    simp at h
  simp [slot_write, hlt]

theorem duplicate_loop_step {DF G : Type} (lib : Library DF G) (browser : List (Container DF))
    (dc_container_id : Int) (k m : Nat) (c : Container DF) (d : DriftCorrectionData G)
    (img : SelectedImage G) (df : DF)
    (himg : d.selected_imgs[m]? = some (some img))
    (hdf : original_field browser img = some df) :
    duplicate_loop lib browser dc_container_id (k + 1) (m : Int) (c, d) =
      duplicate_loop lib browser dc_container_id k ((m + 1 : Nat) : Int)
        ({ c with data := c.data ++ [(lib.new_data_id c, df)] },
          { d with selected_imgs := (d.selected_imgs.set m
              (some { img with img_id := lib.new_data_id c, container_id := dc_container_id })) }) := by
  have h1 := original_field_append browser c img df hdf
  unfold original_field at h1
  rw [duplicate_loop, slot_read_cast _ _ _ himg]
  dsimp only
  split at h1
  · exact absurd h1 (by simp)
  · rw [h1]
    dsimp only
    rw [slot_write_cast _ _ _ _ himg]
    simp [gwy_app_data_browser_add_data_field]
theorem duplicate_loop_spec {DF G : Type} (lib : Library DF G) (browser : List (Container DF))
    (dc_container_id : Int) (k : Nat) :
    ∀ (m : Nat) (c : Container DF) (d : DriftCorrectionData G),
      (∀ t, t < k → ∃ img df, d.selected_imgs[m + t]? = some (some img) ∧
        original_field browser img = some df) →
      ∃ (added : List (Int × DF)) (block : List (Option (SelectedImage G))),
        duplicate_loop lib browser dc_container_id k (m : Int) (c, d)
          = some ({ c with data := c.data ++ added }, { d with selected_imgs := block }) ∧
        added.length = k ∧
        (∀ j, (j < m ∨ m + k ≤ j) → block[j]? = d.selected_imgs[j]?) ∧
        (∀ t, t < k → ∃ img df, d.selected_imgs[m + t]? = some (some img) ∧
          original_field browser img = some df ∧
          added[t]? = some (lib.new_data_id { c with data := c.data ++ added.take t }, df) ∧
          block[m + t]? = some (some { img with
            img_id := lib.new_data_id { c with data := c.data ++ added.take t },
            container_id := dc_container_id })) := by
  induction k with
  | zero =>
    intro m c d _
    refine ⟨[], d.selected_imgs, ?_, rfl, fun _ _ => rfl, fun t ht => absurd ht (by omega)⟩
    simp [duplicate_loop]
  | succ k ih =>
    intro m c d hres
    obtain ⟨img0, df0, himg0, hdf0⟩ := hres 0 (by omega)
    rw [Nat.add_zero] at himg0
    have hlt : m < d.selected_imgs.length := by
      by_contra hcon
      rw [List.getElem?_eq_none (by omega)] at himg0
      simp at himg0
    rw [duplicate_loop_step lib browser dc_container_id k m c d img0 df0 himg0 hdf0]
    have hres2 : ∀ t, t < k → ∃ img df,
        (d.selected_imgs.set m (some { img0 with
          img_id := lib.new_data_id c, container_id := dc_container_id }))[m + 1 + t]?
          = some (some img) ∧ original_field browser img = some df := by
      intro t ht
      obtain ⟨img, df, h1, h2⟩ := hres (t + 1) (by omega)
      refine ⟨img, df, ?_, h2⟩
      rw [List.getElem?_set_ne (by omega)]
      rw [← h1]; congr 1; omega
    obtain ⟨added, block, hloop, hlen, hframe, hnew⟩ :=
      ih (m + 1) { c with data := c.data ++ [(lib.new_data_id c, df0)] }
        { d with selected_imgs := (d.selected_imgs.set m (some { img0 with
            img_id := lib.new_data_id c, container_id := dc_container_id })) } hres2
    refine ⟨(lib.new_data_id c, df0) :: added, block, ?_, by simp [hlen], ?_, ?_⟩
    · rw [hloop]; simp
    · intro j hj
      rw [hframe j (by omega)]
      exact List.getElem?_set_ne (by omega)
    · intro t ht
      cases t with
      | zero =>
        refine ⟨img0, df0, by simpa using himg0, hdf0, by simp, ?_⟩
        rw [Nat.add_zero, hframe m (by omega)]
        simp [List.getElem?_set_self hlt]
      | succ t =>
        obtain ⟨img, df, h1, h2, h3, h4⟩ := hnew t (by omega)
        rw [List.getElem?_set_ne (by omega)] at h1
        refine ⟨img, df, ?_, h2, ?_, ?_⟩
        · rw [← h1]; congr 1; omega
        · simpa using h3
        · have hidx : m + (t + 1) = m + 1 + t := by omega
          rw [hidx, h4]
          simp
theorem selection_resolves_get {DF G : Type} (browser : List (Container DF))
    (d : DriftCorrectionData G)
    (hok : slots_ok d.selected_imgs d.selected_images_len = true)
    (hres : selection_resolves browser d = true) (t : Nat)
    (ht : t < d.selected_images_len.toNat) :
    ∃ img df, d.selected_imgs[t]? = some (some img) ∧ original_field browser img = some df := by
  obtain ⟨_, hall⟩ := (slots_ok_iff _ _).1 hok
  obtain ⟨img, himg⟩ := hall t ht
  have hlt : t < d.selected_imgs.length := by
    by_contra hcon
    rw [List.getElem?_eq_none (by omega)] at himg
    simp at himg
  simp only [selection_resolves, List.all_eq_true] at hres
  have hmem : some img ∈ d.selected_imgs.take d.selected_images_len.toNat := by
    rw [List.mem_iff_getElem?]
    exact ⟨t, by rw [List.getElem?_take_of_lt ht]; exact himg⟩
  have h := hres _ hmem
  simp only [Option.isSome_iff_exists] at h
  obtain ⟨df, hdf⟩ := h
  exact ⟨img, df, himg, hdf⟩

theorem materialize_spec {DF G : Type} (lib : Library DF G) (browser : List (Container DF))
    (d : DriftCorrectionData G)
    (hok : slots_ok d.selected_imgs d.selected_images_len = true)
    (hlen : 1 ≤ d.selected_images_len)
    (hres : selection_resolves browser d = true) :
    ∃ (first : SelectedImage G) (first_df : DF) (added : List (Int × DF))
      (block : List (Option (SelectedImage G))),
      d.selected_imgs[0]? = some (some first) ∧
      original_field browser first = some first_df ∧
      materialize lib browser d = some
        (browser ++ [{ number := lib.new_container_number browser,
                       data := (lib.new_data_id
                         { number := lib.new_container_number browser, data := [] }, first_df)
                         :: added }],
          { d with
            preview_datafield_id := some (lib.new_data_id
              { number := lib.new_container_number browser, data := [] }),
            selected_imgs := block }) ∧
      added.length = d.selected_images_len.toNat ∧
      (∀ j, d.selected_images_len.toNat ≤ j → block[j]? = d.selected_imgs[j]?) ∧
      (∀ t, t < d.selected_images_len.toNat → ∃ img df,
        d.selected_imgs[t]? = some (some img) ∧ original_field browser img = some df ∧
        added[t]? = some (lib.new_data_id
          { number := lib.new_container_number browser,
            data := (lib.new_data_id
              { number := lib.new_container_number browser, data := [] }, first_df)
              :: added.take t }, df) ∧
        block[t]? = some (some { img with
          img_id := lib.new_data_id
            { number := lib.new_container_number browser,
              data := (lib.new_data_id
                { number := lib.new_container_number browser, data := [] }, first_df)
                :: added.take t },
          container_id := lib.new_container_number browser })) := by
  obtain ⟨first, first_df, hfirst, hfirst_df⟩ :=
    selection_resolves_get browser d hok hres 0 (by omega)
  have hloop := duplicate_loop_spec lib browser (lib.new_container_number browser)
    d.selected_images_len.toNat 0
    { number := lib.new_container_number browser,
      data := [(lib.new_data_id { number := lib.new_container_number browser, data := [] },
        first_df)] }
    { d with preview_datafield_id := some (lib.new_data_id
        { number := lib.new_container_number browser, data := [] }) }
    (fun t ht => by
      obtain ⟨img, df, h1, h2⟩ := selection_resolves_get browser d hok hres t ht
      exact ⟨img, df, by simpa using h1, h2⟩)
  obtain ⟨added, block, hrun, hlen2, hframe, hnew⟩ := hloop
  refine ⟨first, first_df, added, block, hfirst, hfirst_df, ?_, hlen2, ?_, ?_⟩
  · have h1 := original_field_append browser
      { number := lib.new_container_number browser, data := [] } first first_df hfirst_df
    unfold original_field at h1
    have hread : slot_read d.selected_imgs 0 = some first := by simp [slot_read, hfirst]
    simp only [Nat.cast_zero] at hrun
    unfold materialize
    dsimp only
    rw [hread]
    dsimp only
    split at h1
    · exact absurd h1 (by simp)
    · rw [h1]
      dsimp only [gwy_app_data_browser_add_data_field]
      simp only [List.nil_append]
      rw [hrun]
      simp
  · intro j hj
    have := hframe j (Or.inr (by omega))
    simpa using this
  · intro t ht
    obtain ⟨img, df, h1, h2, h3, h4⟩ := hnew t ht
    refine ⟨img, df, by simpa using h1, h2, by simpa using h3, by simpa using h4⟩
/-- C7: materialization rebinds every selected image to the working container.
For a selection of `n ≥ 1` entries that all name open images (as every
confirmed selection does, see `confirmed_selection_ok`), lines 593-613
return; the new container `w` is the last of the browser; the selection keeps
its length; and for every `i < n` the channel `i + 1` of `w` holds the data
field of the `i`-th original under the id the library returned for that
addition, and entry `i` keeps its point and now has that id and the number of
`w` (channel 0 of `w` is the preview field). -/
theorem materialize_rebinds {DF G : Type} (lib : Library DF G) (browser : List (Container DF))
    (d : DriftCorrectionData G)
    (hok : slots_ok d.selected_imgs d.selected_images_len = true)
    (hlen : 1 ≤ d.selected_images_len)
    (hres : selection_resolves browser d = true) :
    ∃ (w : Container DF) (d1 : DriftCorrectionData G),
      materialize lib browser d = some (browser ++ [w], d1) ∧
      w.number = lib.new_container_number browser ∧
      d1.selected_images_len = d.selected_images_len ∧
      ∀ i : Nat, (i : Int) < d.selected_images_len →
        ∃ (img : SelectedImage G) (df : DF),
          slot_read d.selected_imgs i = some img ∧
          original_field browser img = some df ∧
          w.data[i + 1]? = some (lib.new_data_id { w with data := w.data.take (i + 1) }, df) ∧
          slot_read d1.selected_imgs i = some { img with
            container_id := w.number,
            img_id := lib.new_data_id { w with data := w.data.take (i + 1) } } := by
  obtain ⟨first, first_df, added, block, _, _, hrun, _, _, hnew⟩ :=
    materialize_spec lib browser d hok hlen hres
  refine ⟨_, _, hrun, rfl, rfl, fun i hi => ?_⟩
  obtain ⟨img, df, h1, h2, h3, h4⟩ := hnew i (by omega)
  refine ⟨img, df, slot_read_cast _ _ _ h1, h2, ?_, ?_⟩
  · simpa using h3
  · have h5 := slot_read_cast _ _ _ h4
    simpa using h5

theorem materialize_rebinds_witness :
    ∃ (w : Container ExampleField) (d1 : DriftCorrectionData Int),
      materialize example_library example_levelled_browser example_selection
        = some (example_levelled_browser ++ [w], d1) ∧
      w.number = example_library.new_container_number example_levelled_browser ∧
      d1.selected_images_len = example_selection.selected_images_len ∧
      ∀ i : Nat, (i : Int) < example_selection.selected_images_len →
        ∃ (img : SelectedImage Int) (df : ExampleField),
          slot_read example_selection.selected_imgs i = some img ∧
          original_field example_levelled_browser img = some df ∧
          w.data[i + 1]? = some
            (example_library.new_data_id { w with data := w.data.take (i + 1) }, df) ∧
          slot_read d1.selected_imgs i = some { img with
            container_id := w.number,
            img_id := example_library.new_data_id { w with data := w.data.take (i + 1) } } :=
  materialize_rebinds example_library example_levelled_browser example_selection
    (by decide) (by decide) (by decide)

theorem materialize_count {DF G : Type} (lib : Library DF G)
    (browser : List (Container DF)) (d : DriftCorrectionData G)
    (hok : slots_ok d.selected_imgs d.selected_images_len = true)
    (hlen : 1 ≤ d.selected_images_len)
    (hres : selection_resolves browser d = true) :
    ∃ (w : Container DF) (d1 : DriftCorrectionData G),
      materialize lib browser d = some (browser ++ [w], d1) ∧
      (w.data.length : Int) = d.selected_images_len + 1 ∧
      d1.selected_images_len = d.selected_images_len ∧
      slots_ok d1.selected_imgs d1.selected_images_len = true := by
  obtain ⟨first, first_df, added, block, _, _, hrun, hadded, _, hnew⟩ :=
    materialize_spec lib browser d hok hlen hres
  refine ⟨_, _, hrun, ?_, rfl, ?_⟩
  · simp only [List.length_cons, hadded]
    omega
  · rw [slots_ok_iff]
    refine ⟨by show 0 ≤ d.selected_images_len; omega, fun i hi => ?_⟩
    have hi2 : i < d.selected_images_len.toNat := hi
    obtain ⟨img, df, _, _, _, h4⟩ := hnew i hi2
    exact ⟨_, h4⟩

/-! ## The prompt (C9, C10) -/

theorem dc_data_append_image_selected {G : Type} (d d1 : DriftCorrectionData G)
    (image : SelectedImage G) (h : dc_data_append_image d image = some d1) :
    d1.selected_imgs = d.selected_imgs ∧ d1.selected_images_len = d.selected_images_len ∧
        d1.selected_images_cap = d.selected_images_cap := by
  unfold dc_data_append_image at h
  split at h
  · exact absurd h (by simp)
  · dsimp only at h
    split_ifs at h <;> (simp only [Option.some.injEq] at h; subst h; exact ⟨rfl, rfl, rfl⟩)

theorem setup_dc_data_loop_selected {G : Type} (container_id : Int) (stack : Nat → G × G)
    (ids : List Int) :
    ∀ (i : Nat) (d d1 : DriftCorrectionData G),
      setup_dc_data_loop container_id stack ids i d = some d1 →
      d1.selected_imgs = d.selected_imgs ∧ d1.selected_images_len = d.selected_images_len ∧
        d1.selected_images_cap = d.selected_images_cap := by
  induction ids with
  | nil => intro i d d1 h; simp [setup_dc_data_loop] at h
  | cons id rest ih =>
    intro i d d1 h
    simp only [setup_dc_data_loop] at h
    split_ifs at h
    · simp only [Option.some.injEq] at h; subst h; exact ⟨rfl, rfl, rfl⟩
    · split at h
      · exact absurd h (by simp)
      · rename_i d2 h2
        obtain ⟨ha, hb, hcap1⟩ := dc_data_append_image_selected _ _ _ h2
        obtain ⟨hc, hd, hcap2⟩ := ih _ _ _ h
        exact ⟨hc.trans ha, hd.trans hb, hcap2.trans hcap1⟩

theorem collect_images_selected {DF G : Type} (stack : Nat → Nat → G × G)
    (browser : List (Container DF)) :
    ∀ (j : Nat) (d d1 : DriftCorrectionData G), collect_images stack browser j d = some d1 →
      d1.selected_imgs = d.selected_imgs ∧ d1.selected_images_len = d.selected_images_len ∧
        d1.selected_images_cap = d.selected_images_cap := by
  induction browser with
  | nil => intro j d d1 h; simp only [collect_images, Option.some.injEq] at h; subst h; exact ⟨rfl, rfl, rfl⟩
  | cons c rest ih =>
    intro j d d1 h
    simp only [collect_images] at h
    split at h
    · exact absurd h (by simp)
    · rename_i d2 h2
      obtain ⟨ha, hb, hcap1⟩ := setup_dc_data_loop_selected _ _ _ _ _ _ h2
      obtain ⟨hc, hd, hcap2⟩ := ih _ _ _ h
      exact ⟨hc.trans ha, hd.trans hb, hcap2.trans hcap1⟩

theorem map_update_first {α β : Type} (g : α → β) (p : α → Bool) (f : α → α)
    (hf : ∀ a, g (f a) = g a) (l : List α) : (update_first p f l).map g = l.map g := by
  induction l with
  | nil => rfl
  | cons a l ih =>
    simp only [update_first]
    split_ifs
    · simp [hf]
    · simp [ih]

theorem level_in_place_shape {DF G : Type} (lib : Library DF G) (browser : List (Container DF))
    (container_id img_id : Int) :
    (level_in_place lib browser container_id img_id).map
        (fun c => (c.number, c.data.map Prod.fst))
      = browser.map (fun c => (c.number, c.data.map Prod.fst)) := by
  unfold level_in_place
  apply map_update_first
  intro c
  simp only [Prod.mk.injEq, true_and]
  apply map_update_first
  intro e
  rfl

theorem fill_store_shape {DF G : Type} (lib : Library DF G) (d : DriftCorrectionData G)
    (k : Nat) :
    ∀ (i : Int) (b b1 : List (Container DF)) (store store1 : List StoreRow),
      fill_store lib d k i (b, store) = some (b1, store1) →
      b1.map (fun c => (c.number, c.data.map Prod.fst))
        = b.map (fun c => (c.number, c.data.map Prod.fst)) := by
  induction k with
  | zero =>
    intro i b b1 store store1 h
    simp only [fill_store, Option.some.injEq, Prod.mk.injEq] at h
    rw [h.1]
  | succ k ih =>
    intro i b b1 store store1 h
    simp only [fill_store] at h
    split at h
    · exact absurd h (by simp)
    · split at h
      · exact absurd h (by simp)
      · split at h
        · exact absurd h (by simp)
        · rw [ih _ _ _ _ _ h, level_in_place_shape]

theorem before_prompt_facts {DF G : Type} (lib : Library DF G) (browser b2 : List (Container DF))
    (stack_images : Nat → Nat → G × G) (store : List StoreRow) (d2 : DriftCorrectionData G)
    (h : before_prompt lib browser stack_images = some (b2, store, d2)) :
    d2.selected_imgs = List.replicate 32 none ∧ d2.selected_images_len = 0 ∧
      b2.map (fun c => (c.number, c.data.map Prod.fst))
        = browser.map (fun c => (c.number, c.data.map Prod.fst)) := by
  unfold before_prompt at h
  split at h
  · exact absurd h (by simp)
  · rename_i d3 h3
    split at h
    · exact absurd h (by simp)
    · rename_i b4 store4 h4
      simp only [Option.some.injEq, Prod.mk.injEq] at h
      obtain ⟨rfl, rfl, rfl⟩ := h
      obtain ⟨ha, hb, _⟩ := collect_images_selected _ _ _ _ _ h3
      exact ⟨ha, hb, fill_store_shape _ _ _ _ _ _ _ _ h4⟩

/-- C9: when the prompt is shown and ends with `GTK_RESPONSE_CANCEL`,
`drift_correction` returns at line 590 whatever is selected in the icon view:
no session is opened, the `switch` appends nothing (the selection of the record
still has length 0 and no slot written), and the browser has the containers
and channels it had at the call, none added (their data fields were levelled
for the thumbnails). -/
theorem cancel_aborts {DF G : Type} (lib : Library DF G) (browser b2 : List (Container DF))
    (selected : List Nat) (stack_images : Nat → Nat → G × G) (stack_selected : Nat → G × G)
    (store : List StoreRow) (d2 : DriftCorrectionData G)
    (hprompt : before_prompt lib browser stack_images = some (b2, store, d2)) :
    drift_correction lib browser GTK_RESPONSE_CANCEL selected stack_images stack_selected
        = some (Outcome.cancelled b2) ∧
      prompt_switch store GTK_RESPONSE_CANCEL selected stack_selected d2
        = some AfterPrompt.returned ∧
      d2.selected_images_len = 0 ∧
      d2.selected_imgs = List.replicate 32 none ∧
      b2.map (fun c => (c.number, c.data.map Prod.fst))
        = browser.map (fun c => (c.number, c.data.map Prod.fst)) := by
  obtain ⟨ha, hb, hc⟩ := before_prompt_facts lib browser b2 stack_images store d2 hprompt
  have hsw : prompt_switch store GTK_RESPONSE_CANCEL selected stack_selected d2
      = some AfterPrompt.returned := by
    simp [prompt_switch, GTK_RESPONSE_CANCEL, GTK_RESPONSE_OK]
  refine ⟨?_, hsw, hb, ha, hc⟩
  unfold drift_correction
  rw [hprompt]
  dsimp only
  rw [hsw]

theorem cancel_aborts_witness :
    ∃ (store : List StoreRow) (d2 : DriftCorrectionData Int),
      before_prompt example_library example_browser (fun _ => example_stack)
        = some (example_levelled_browser, store, d2) ∧
      drift_correction example_library example_browser GTK_RESPONSE_CANCEL [0, 2]
          (fun _ => example_stack) example_stack
        = some (Outcome.cancelled example_levelled_browser) ∧
      prompt_switch store GTK_RESPONSE_CANCEL [0, 2] example_stack d2
        = some AfterPrompt.returned ∧
      d2.selected_images_len = 0 ∧
      d2.selected_imgs = List.replicate 32 none ∧
      example_levelled_browser.map (fun c => (c.number, c.data.map Prod.fst))
        = example_browser.map (fun c => (c.number, c.data.map Prod.fst)) :=
  ⟨_, _, rfl, cancel_aborts example_library example_browser example_levelled_browser [0, 2]
    (fun _ => example_stack) example_stack _ _ rfl⟩
theorem prompt_switch_goes_on {G : Type} (store : List StoreRow) (prompt_response : Int)
    (selected : List Nat) (stack : Nat → G × G) (d : DriftCorrectionData G)
    (h : (prompt_response = GTK_RESPONSE_OK ∧ selected = []) ∨
      (prompt_response ≠ GTK_RESPONSE_OK ∧ prompt_response ≠ GTK_RESPONSE_CANCEL)) :
    prompt_switch store prompt_response selected stack d = some (AfterPrompt.goes_on d) := by
  rcases h with ⟨h1, h2⟩ | ⟨h1, h2⟩
  · subst h1 h2
    simp [prompt_switch, selected_foreach]
  · simp [prompt_switch, h1, h2]

/-- C10 (the code does not do it): on the example repository the prompt that is
confirmed with nothing selected, and the prompt that is closed by the window
manager (`GTK_RESPONSE_DELETE_EVENT`, for which the `switch` has no label),
both leave the `switch` and go on to line 593 with `selected_images_len = 0`;
line 598 then reads `selected_imgs[0]`, a slot that was never written. -/
theorem empty_selection_reaches_materialization :
    ∃ (store : List StoreRow) (d2 : DriftCorrectionData Int),
      before_prompt example_library example_browser (fun _ => example_stack)
        = some (example_levelled_browser, store, d2) ∧
      prompt_switch store GTK_RESPONSE_OK [] example_stack d2 = some (AfterPrompt.goes_on d2) ∧
      prompt_switch store GTK_RESPONSE_DELETE_EVENT [0, 2] example_stack d2
        = some (AfterPrompt.goes_on d2) ∧
      d2.selected_images_len = 0 ∧
      ¬ (1 ≤ d2.selected_images_len) ∧
      slot_read d2.selected_imgs 0 = none ∧
      materialize example_library example_levelled_browser d2 = none ∧
      drift_correction example_library example_browser GTK_RESPONSE_OK []
        (fun _ => example_stack) example_stack = none ∧
      drift_correction example_library example_browser GTK_RESPONSE_DELETE_EVENT [0, 2]
        (fun _ => example_stack) example_stack = none := by
  refine ⟨_, _, rfl, rfl, rfl, rfl, ?_, rfl, rfl, rfl, rfl⟩
  decide

theorem prompt_example :
    ∃ (store : List StoreRow) (d2 : DriftCorrectionData Int),
      before_prompt example_library example_browser (fun _ => example_stack)
        = some (example_levelled_browser, store, d2) ∧
      prompt_switch store GTK_RESPONSE_OK [0, 2] example_stack d2
        = some (AfterPrompt.goes_on example_selection) ∧
      materialize example_library example_levelled_browser example_selection
        = some (example_working_browser, example_session) := by
  refine ⟨_, _, rfl, ?_, ?_⟩ <;> decide

/-! ## Growable arrays keep their invariant -/

theorem int32_eq_self (x : Int) (h0 : 0 ≤ x) (h1 : x < 2147483648) : int32 x = x := by
  unfold int32
  omega

theorem array_inv_grow {α : Type} (P : α → Bool) (block : List (Option α)) (len cap : Int)
    (v : α) (hinv : array_inv P block len cap) (hv : P v = true)
    (hsmall : len + 1 < 1073741824) :
    slot_write block len v = some (block.set len.toNat (some v)) ∧
    int32 (len + 1) = len + 1 ∧
    (len + 1 = cap → int32 (cap * 2) = cap * 2 ∧
      array_inv P (c_realloc (block.set len.toNat (some v)) (cap * 2)) (len + 1) (cap * 2)) ∧
    (len + 1 ≠ cap → array_inv P (block.set len.toNat (some v)) (len + 1) cap) ∧
    (∀ i : Nat, i < len.toNat →
      (c_realloc (block.set len.toNat (some v)) (cap * 2))[i]? = block[i]? ∧
      (block.set len.toNat (some v))[i]? = block[i]?) ∧
    (c_realloc (block.set len.toNat (some v)) (cap * 2))[len.toNat]? = some (some v) ∧
    (block.set len.toNat (some v))[len.toNat]? = some (some v) := by
  obtain ⟨h0, hlt, hlength, hall⟩ := hinv
  have hb : len.toNat < block.length := by omega
  have hset_len : (block.set len.toNat (some v)).length = block.length := List.length_set _ _ _
  have hre : ∀ i : Nat, i < block.length →
      (c_realloc (block.set len.toNat (some v)) (cap * 2))[i]?
        = (block.set len.toNat (some v))[i]? := by
    intro i hi
    unfold c_realloc
    rw [List.getElem?_append_left (by simp [List.length_take]; omega)]
    rw [List.getElem?_take_of_lt (by omega)]
  have hat : (block.set len.toNat (some v))[len.toNat]? = some (some v) := by
    rw [List.getElem?_set_self hb]
  have hother : ∀ i : Nat, i < len.toNat → (block.set len.toNat (some v))[i]? = block[i]? := by
    intro i hi
    rw [List.getElem?_set_ne (by omega)]
  have hentries : ∀ i : Nat, i < (len + 1).toNat →
      ∃ w, (block.set len.toNat (some v))[i]? = some (some w) ∧ P w = true := by
    intro i hi
    by_cases hil : i = len.toNat
    · subst hil; exact ⟨v, hat, hv⟩
    · obtain ⟨w, hw, hpw⟩ := hall i (by omega)
      exact ⟨w, by rw [hother i (by omega)]; exact hw, hpw⟩
  refine ⟨?_, int32_eq_self _ (by omega) (by omega), ?_, ?_, ?_, ?_, hat⟩
  · simp [slot_write, h0, hb]
  · intro hcap
    refine ⟨int32_eq_self _ (by omega) (by omega), by omega, by omega, ?_, ?_⟩
    · unfold c_realloc
      simp only [List.length_append, List.length_take, List.length_replicate, hset_len]
      omega
    · intro i hi
      obtain ⟨w, hw, hpw⟩ := hentries i hi
      exact ⟨w, by rw [hre i (by omega)]; exact hw, hpw⟩
  · intro hcap
    exact ⟨by omega, by omega, by rw [hset_len]; exact hlength, hentries⟩
  · intro i hi
    exact ⟨by rw [hre i (by omega)]; exact hother i hi, hother i hi⟩
  · rw [hre _ hb]; exact hat
theorem dc_data_append_selected_images_spec {G : Type} (P : SelectedImage G → Bool)
    (store : List StoreRow) (tree_path : Nat) (stack : G × G) (d : DriftCorrectionData G)
    (row : StoreRow) (hrow : store[tree_path]? = some row)
    (hinv : array_inv P d.selected_imgs d.selected_images_len d.selected_images_cap)
    (hP : P { container_id := row.container_id, img_id := row.img_id,
              x_selection := stack.1, y_selection := stack.2 } = true)
    (hsmall : d.selected_images_len + 1 < 1073741824) :
    ∃ d1, dc_data_append_selected_images store tree_path stack d = some d1 ∧
      array_inv P d1.selected_imgs d1.selected_images_len d1.selected_images_cap ∧
      d1.selected_images_len = d.selected_images_len + 1 ∧
      (∀ i : Nat, i < d.selected_images_len.toNat →
        d1.selected_imgs[i]? = d.selected_imgs[i]?) ∧
      d1.selected_imgs[d.selected_images_len.toNat]? =
        some (some { container_id := row.container_id, img_id := row.img_id,
                     x_selection := stack.1, y_selection := stack.2 }) := by
  obtain ⟨hw, hlen, hfull, hroom, hold, hnew1, hnew2⟩ :=
    array_inv_grow P d.selected_imgs d.selected_images_len d.selected_images_cap _ hinv hP hsmall
  unfold dc_data_append_selected_images
  rw [hrow]
  dsimp only
  rw [hw]
  dsimp only
  rw [hlen]
  by_cases hcap : d.selected_images_len + 1 = d.selected_images_cap
  · obtain ⟨h32, hinv2⟩ := hfull hcap
    rw [if_pos hcap, h32]
    exact ⟨_, rfl, hinv2, rfl, fun i hi => (hold i hi).1, hnew1⟩
  · rw [if_neg hcap]
    exact ⟨_, rfl, hroom hcap, rfl, fun i hi => (hold i hi).2, hnew2⟩

theorem selected_foreach_spec {G : Type} (P : SelectedImage G → Bool) (store : List StoreRow)
    (stack : Nat → G × G) (selected : List Nat) :
    ∀ (j : Nat) (d : DriftCorrectionData G),
      (∀ p ∈ selected, ∃ row, store[p]? = some row ∧
        ∀ xy : G × G, P { container_id := row.container_id, img_id := row.img_id,
                          x_selection := xy.1, y_selection := xy.2 } = true) →
      array_inv P d.selected_imgs d.selected_images_len d.selected_images_cap →
      d.selected_images_len + selected.length < 1073741824 →
      ∃ d1, selected_foreach store stack selected j d = some d1 ∧
        array_inv P d1.selected_imgs d1.selected_images_len d1.selected_images_cap ∧
        d1.selected_images_len = d.selected_images_len + selected.length := by
  induction selected with
  | nil =>
    intro j d _ hinv _
    exact ⟨d, rfl, hinv, by simp⟩
  | cons p rest ih =>
    intro j d hrows hinv hsmall
    simp only [List.length_cons, Nat.cast_add, Nat.cast_one] at hsmall
    obtain ⟨row, hrow, hP⟩ := hrows p (List.mem_cons_self _ _)
    obtain ⟨d1, h1, hinv1, hlen1, _, _⟩ :=
      dc_data_append_selected_images_spec P store p (stack j) d row hrow hinv (hP _) (by omega)
    obtain ⟨d2, h2, hinv2, hlen2⟩ := ih (j + 1) d1
      (fun q hq => hrows q (List.mem_cons_of_mem _ hq)) hinv1 (by omega)
    refine ⟨d2, ?_, hinv2, ?_⟩
    · simp only [selected_foreach, h1]
      exact h2
    · rw [hlen2, hlen1]
      simp only [List.length_cons, Nat.cast_add, Nat.cast_one]
      omega

theorem array_inv_slots_ok {α : Type} (P : α → Bool) (block : List (Option α)) (len cap : Int)
    (h : array_inv P block len cap) : slots_ok block len = true := by
  rw [slots_ok_iff]
  refine ⟨h.1, fun i hi => ?_⟩
  obtain ⟨v, hv, _⟩ := h.2.2.2 i hi
  exact ⟨v, hv⟩
/-! ## Images listed in the prompt are open -/

theorem get_object_isSome {DF : Type} (c : Container DF) (img_id : Int) :
    (gwy_container_get_object c img_id).isSome = (c.data.map Prod.fst).contains img_id := by
  unfold gwy_container_get_object
  induction c.data with
  | nil => rfl
  | cons e rest ih =>
    simp only [List.find?_cons, List.map_cons, List.contains_cons]
    by_cases he : e.1 = img_id
    · simp [he]
    · have h1 : (e.1 == img_id) = false := by simpa using he
      have h2 : (img_id == e.1) = false := by simpa using fun h => he h.symm
      rw [h1, h2]
      simpa using ih

theorem original_field_isSome {DF G : Type} (browser : List (Container DF))
    (img : SelectedImage G) :
    (original_field browser img).isSome = image_is_open browser img.container_id img.img_id := by
  unfold original_field image_is_open gwy_app_data_browser_get
  cases List.find? (fun c => c.number == img.container_id) browser with
  | none => rfl
  | some c => exact get_object_isSome c img.img_id

theorem image_is_open_shape {DF : Type} (b : List (Container DF)) :
    ∀ (b1 : List (Container DF)),
      b1.map (fun c => (c.number, c.data.map Prod.fst))
        = b.map (fun c => (c.number, c.data.map Prod.fst)) →
      ∀ container_id img_id : Int,
        image_is_open b1 container_id img_id = image_is_open b container_id img_id := by
  induction b with
  | nil =>
    intro b1 h container_id img_id
    simp only [List.map_nil, List.map_eq_nil_iff] at h
    rw [h]
  | cons c rest ih =>
    intro b1 h container_id img_id
    cases b1 with
    | nil => simp at h
    | cons c1 rest1 =>
      simp only [List.map_cons, List.cons.injEq, Prod.mk.injEq] at h
      obtain ⟨⟨hnum, hids⟩, hrest⟩ := h
      have hrec := ih rest1 hrest container_id img_id
      unfold image_is_open at hrec ⊢
      simp only [List.find?_cons, hnum]
      cases hc : (c.number == container_id) with
      | true => simp only [hids]
      | false => exact hrec

theorem fill_store_rows_open {DF G : Type} (lib : Library DF G) (d : DriftCorrectionData G)
    (k : Nat) :
    ∀ (i : Int) (b b1 : List (Container DF)) (store store1 : List StoreRow),
      fill_store lib d k i (b, store) = some (b1, store1) →
      (∀ row ∈ store, image_is_open b row.container_id row.img_id = true) →
      ∀ row ∈ store1, image_is_open b1 row.container_id row.img_id = true := by
  induction k with
  | zero =>
    intro i b b1 store store1 h hopen
    simp only [fill_store, Option.some.injEq, Prod.mk.injEq] at h
    obtain ⟨rfl, rfl⟩ := h
    exact hopen
  | succ k ih =>
    intro i b b1 store store1 h hopen
    simp only [fill_store] at h
    split at h
    · exact absurd h (by simp)
    · rename_i image himage
      split at h
      · exact absurd h (by simp)
      · rename_i container hcontainer
        split at h
        · exact absurd h (by simp)
        · rename_i df hdf
          have hshape := level_in_place_shape lib b image.container_id image.img_id
          have hnew : image_is_open b image.container_id image.img_id = true := by
            rw [← original_field_isSome b image]
            unfold original_field
            rw [hcontainer]
            simp [hdf]
          refine ih _ _ _ _ _ h ?_
          intro row hrow
          rw [image_is_open_shape b _ hshape]
          rcases List.mem_append.1 hrow with hmem | hmem
          · exact hopen row hmem
          · simp only [List.mem_singleton] at hmem
            subst hmem
            exact hnew

/-! ## A confirmed selection satisfies what materialization needs -/

theorem before_prompt_ready {DF G : Type} (lib : Library DF G) (browser b2 : List (Container DF))
    (stack_images : Nat → Nat → G × G) (store : List StoreRow) (d2 : DriftCorrectionData G)
    (h : before_prompt lib browser stack_images = some (b2, store, d2)) :
    (∀ row ∈ store, image_is_open b2 row.container_id row.img_id = true) ∧
      array_inv (fun img : SelectedImage G => image_is_open b2 img.container_id img.img_id)
        d2.selected_imgs d2.selected_images_len d2.selected_images_cap := by
  unfold before_prompt at h
  split at h
  · exact absurd h (by simp)
  · rename_i d3 h3
    split at h
    · exact absurd h (by simp)
    · rename_i b4 store4 h4
      simp only [Option.some.injEq, Prod.mk.injEq] at h
      obtain ⟨rfl, rfl, rfl⟩ := h
      obtain ⟨ha, hb, hc⟩ := collect_images_selected _ _ _ _ _ h3
      refine ⟨fill_store_rows_open _ _ _ _ _ _ _ _ h4 (fun row hrow => absurd hrow (by simp)), ?_⟩
      rw [ha, hb, hc]
      simp only [dc_data_new]
      refine ⟨le_refl _, by omega, by simp, fun i hi => absurd hi (by simp)⟩

theorem array_inv_resolves {DF G : Type} (browser : List (Container DF))
    (d : DriftCorrectionData G)
    (h : array_inv (fun img : SelectedImage G =>
        image_is_open browser img.container_id img.img_id)
      d.selected_imgs d.selected_images_len d.selected_images_cap) :
    selection_resolves browser d = true := by
  simp only [selection_resolves, List.all_eq_true]
  intro slot hslot
  obtain ⟨i, hi⟩ := List.mem_iff_getElem?.1 hslot
  have hlt : i < d.selected_images_len.toNat := by
    by_contra hcon
    rw [List.getElem?_take_eq_none (by omega)] at hi
    simp at hi
  rw [List.getElem?_take_of_lt hlt] at hi
  obtain ⟨v, hv, hP⟩ := h.2.2.2 i hlt
  rw [hv] at hi
  simp only [Option.some.injEq] at hi
  subst hi
  simpa [original_field_isSome] using hP

theorem confirmed_selection_ok {DF G : Type} (lib : Library DF G)
    (browser b2 : List (Container DF)) (selected : List Nat)
    (stack_images : Nat → Nat → G × G) (stack_selected : Nat → G × G)
    (store : List StoreRow) (d2 : DriftCorrectionData G)
    (hprompt : before_prompt lib browser stack_images = some (b2, store, d2))
    (hrows : ∀ p ∈ selected, p < store.length)
    (hsmall : selected.length < 1073741824) :
    ∃ d3, prompt_switch store GTK_RESPONSE_OK selected stack_selected d2
        = some (AfterPrompt.goes_on d3) ∧
      slots_ok d3.selected_imgs d3.selected_images_len = true ∧
      selection_resolves b2 d3 = true ∧
      d3.selected_images_len = selected.length := by
  obtain ⟨hopen, hinv⟩ := before_prompt_ready lib browser b2 stack_images store d2 hprompt
  obtain ⟨_, hlen0, _⟩ := before_prompt_facts lib browser b2 stack_images store d2 hprompt
  obtain ⟨d3, h3, hinv3, hlen3⟩ := selected_foreach_spec
    (fun img : SelectedImage G => image_is_open b2 img.container_id img.img_id)
    store stack_selected selected 0 d2
    (fun p hp => by
      have hlt := hrows p hp
      exact ⟨store[p], List.getElem?_eq_getElem hlt, fun _ => hopen _ (List.getElem_mem _)⟩)
    hinv (by rw [hlen0]; omega)
  refine ⟨d3, ?_, array_inv_slots_ok _ _ _ _ hinv3, array_inv_resolves b2 d3 hinv3, ?_⟩
  · simp [prompt_switch, h3]
  · rw [hlen3, hlen0]; simp

theorem drift_correction_confirmed {DF G : Type} (lib : Library DF G)
    (browser b2 : List (Container DF)) (selected : List Nat)
    (stack_images : Nat → Nat → G × G) (stack_selected : Nat → G × G)
    (store : List StoreRow) (d2 : DriftCorrectionData G)
    (hprompt : before_prompt lib browser stack_images = some (b2, store, d2))
    (hrows : ∀ p ∈ selected, p < store.length)
    (hne : selected ≠ [])
    (hsmall : selected.length < 1073741824) :
    ∃ (w : Container DF) (d : DriftCorrectionData G),
      drift_correction lib browser GTK_RESPONSE_OK selected stack_images stack_selected
        = some (Outcome.session (b2 ++ [w]) d) ∧
      (w.data.length : Int) = selected.length + 1 ∧
      d.selected_images_len = selected.length ∧
      slots_ok d.selected_imgs d.selected_images_len = true ∧
      d.current_preview = 0 ∧ d.current_preview_img = none := by
  obtain ⟨d3, hsw, hok3, hres3, hlen3⟩ := confirmed_selection_ok lib browser b2 selected
    stack_images stack_selected store d2 hprompt hrows hsmall
  have hpos : 1 ≤ d3.selected_images_len := by
    rw [hlen3]
    have : 0 < selected.length := List.length_pos.2 hne
    omega
  obtain ⟨w, d, hmat, hcount, hlen, hok⟩ := materialize_count lib b2 d3 hok3 hpos hres3
  have hrun : drift_correction lib browser GTK_RESPONSE_OK selected stack_images stack_selected
      = some (Outcome.session (b2 ++ [w]) d) := by
    unfold drift_correction
    rw [hprompt]
    dsimp only
    rw [hsw]
    dsimp only
    rw [hmat]
  obtain ⟨hc, hp⟩ := drift_correction_pointer _ _ _ _ _ _ _ _ hrun
  exact ⟨w, d, hrun, by rw [hcount, hlen3], by rw [hlen, hlen3], hok, hc, hp⟩

/-- C8, amended: when the prompt is shown and confirmed with a non-empty
selection `S` of rows of the list store, `drift_correction` opens a session on
`len(S)` images and has added exactly `len(S) + 1` data fields to the working
container, the last container of the browser: the preview field of line 602
and one duplicate for each selected image. -/
theorem working_container_count {DF G : Type} (lib : Library DF G)
    (browser b2 : List (Container DF)) (selected : List Nat)
    (stack_images : Nat → Nat → G × G) (stack_selected : Nat → G × G)
    (store : List StoreRow) (d2 : DriftCorrectionData G)
    (hprompt : before_prompt lib browser stack_images = some (b2, store, d2))
    (hrows : ∀ p ∈ selected, p < store.length)
    (hne : selected ≠ [])
    (hsmall : selected.length < 1073741824) :
    ∃ (w : Container DF) (d : DriftCorrectionData G),
      drift_correction lib browser GTK_RESPONSE_OK selected stack_images stack_selected
        = some (Outcome.session (b2 ++ [w]) d) ∧
      d.selected_images_len = selected.length ∧
      w.data.length = selected.length + 1 := by
  obtain ⟨w, d, hrun, hcount, hlen, _⟩ := drift_correction_confirmed lib browser b2 selected
    stack_images stack_selected store d2 hprompt hrows hne hsmall
  exact ⟨w, d, hrun, hlen, by omega⟩

theorem working_container_count_witness :
    ∃ (store : List StoreRow) (d2 : DriftCorrectionData Int),
      before_prompt example_library example_browser (fun _ => example_stack)
        = some (example_levelled_browser, store, d2) ∧
      ∃ (w : Container ExampleField) (d : DriftCorrectionData Int),
        drift_correction example_library example_browser GTK_RESPONSE_OK [0, 2]
            (fun _ => example_stack) example_stack
          = some (Outcome.session (example_levelled_browser ++ [w]) d) ∧
        d.selected_images_len = ([0, 2] : List Nat).length ∧
        w.data.length = ([0, 2] : List Nat).length + 1 :=
  ⟨_, _, rfl, working_container_count example_library example_browser example_levelled_browser
    [0, 2] (fun _ => example_stack) example_stack _ _ rfl (by decide) (by decide) (by decide)⟩

/-- C8 as stated fails: with the two images "a" and "c" selected and confirmed,
`drift_correction` has added three data fields to the working container, not
two. -/
theorem working_container_count_counterexample :
    ∃ (w : Container ExampleField) (d : DriftCorrectionData Int),
      drift_correction example_library example_browser GTK_RESPONSE_OK [0, 2]
          (fun _ => example_stack) example_stack
        = some (Outcome.session (example_levelled_browser ++ [w]) d) ∧
      d.selected_images_len = 2 ∧
      w.data.length = 3 ∧
      ¬ ((w.data.length : Int) = d.selected_images_len) := by
  refine ⟨_, _, drift_correction_example, rfl, rfl, ?_⟩
  decide

/-! ## The run handler (C11, C12) -/

theorem on_run_loop_spec {DF G : Type} (lib : Library DF G) (browser : List (Container DF))
    (d : DriftCorrectionData G) (k : Nat) :
    ∀ m : Nat,
      (∀ t, t < k → ∃ img df, d.selected_imgs[m + t]? = some (some img) ∧
        original_field browser img = some df) →
      ∃ out : List (G × G), on_run_loop lib browser d k (m : Int) = some out ∧
        out.length = k ∧
        ∀ t, t < k → ∃ img df, d.selected_imgs[m + t]? = some (some img) ∧
          original_field browser img = some df ∧
          out[t]? = some (lib.gwy_data_field_rtoj df img.x_selection,
            lib.gwy_data_field_rtoi df img.y_selection) := by
  induction k with
  | zero =>
    intro m _
    exact ⟨[], rfl, rfl, fun t ht => absurd ht (by omega)⟩
  | succ k ih =>
    intro m hres
    obtain ⟨img0, df0, himg0, hdf0⟩ := hres 0 (by omega)
    rw [Nat.add_zero] at himg0
    obtain ⟨out, hout, hlen, hall⟩ := ih (m + 1) (fun t ht => by
      obtain ⟨img, df, h1, h2⟩ := hres (t + 1) (by omega)
      exact ⟨img, df, by rw [← h1]; congr 1; omega, h2⟩)
    have hdf0' := hdf0
    unfold original_field at hdf0'
    refine ⟨(lib.gwy_data_field_rtoj df0 img0.x_selection,
      lib.gwy_data_field_rtoi df0 img0.y_selection) :: out, ?_, by simp [hlen], ?_⟩
    · rw [on_run_loop, slot_read_cast _ _ _ himg0]
      dsimp only
      split at hdf0'
      · exact absurd hdf0' (by simp)
      · rw [hdf0']
        dsimp only
        have hcast : ((m : Int) + 1) = ((m + 1 : Nat) : Int) := by push_cast; rfl
        rw [hcast, hout]
    · intro t ht
      cases t with
      | zero => exact ⟨img0, df0, by simpa using himg0, hdf0, by simp⟩
      | succ t =>
        obtain ⟨img, df, h1, h2, h3⟩ := hall t (by omega)
        refine ⟨img, df, ?_, h2, by simpa using h3⟩
        rw [← h1]; congr 1; omega

/-- C11: in a session whose `selected_images_len` entries are present and name
images that resolve in the browser, `on_run_btn_click` returns exactly
`selected_images_len` entries in the order of the selection; entry `i` is the
column index `gwy_data_field_rtoj` gives for `selected_imgs[i].x_selection` and
the row index `gwy_data_field_rtoi` gives for `selected_imgs[i].y_selection`,
both taken on the data field that the identity of image `i` itself resolves
to; and handling the run event leaves the session as it was. -/
theorem run_reports_every_image {DF G : Type} (lib : Library DF G)
    (browser : List (Container DF)) (d : DriftCorrectionData G)
    (hok : slots_ok d.selected_imgs d.selected_images_len = true)
    (hres : selection_resolves browser d = true) :
    ∃ out : List (G × G), on_run_btn_click lib browser d = some out ∧
      (out.length : Int) = d.selected_images_len ∧
      (∀ i : Nat, (i : Int) < d.selected_images_len →
        ∃ img df, slot_read d.selected_imgs i = some img ∧
          original_field browser img = some df ∧
          out[i]? = some (lib.gwy_data_field_rtoj df img.x_selection,
            lib.gwy_data_field_rtoi df img.y_selection)) ∧
      handle lib browser d Event.run = some d := by
  have h0 : 0 ≤ d.selected_images_len := ((slots_ok_iff _ _).1 hok).1
  obtain ⟨out, hout, hlen, hall⟩ := on_run_loop_spec lib browser d d.selected_images_len.toNat 0
    (fun t ht => by
      obtain ⟨img, df, h1, h2⟩ := selection_resolves_get browser d hok hres t ht
      exact ⟨img, df, by simpa using h1, h2⟩)
  have hrun : on_run_btn_click lib browser d = some out := by
    unfold on_run_btn_click
    simpa using hout
  refine ⟨out, hrun, by rw [hlen]; omega, fun i hi => ?_, by simp [handle, hrun]⟩
  obtain ⟨img, df, h1, h2, h3⟩ := hall i (by omega)
  rw [Nat.zero_add] at h1
  exact ⟨img, df, slot_read_cast _ _ _ h1, h2, h3⟩

theorem run_reports_every_image_witness :
    ∃ out : List (Int × Int),
      on_run_btn_click example_library example_working_browser example_session = some out ∧
      (out.length : Int) = example_session.selected_images_len ∧
      (∀ i : Nat, (i : Int) < example_session.selected_images_len →
        ∃ img df, slot_read example_session.selected_imgs i = some img ∧
          original_field example_working_browser img = some df ∧
          out[i]? = some (example_library.gwy_data_field_rtoj df img.x_selection,
            example_library.gwy_data_field_rtoi df img.y_selection)) ∧
      handle example_library example_working_browser example_session Event.run
        = some example_session :=
  run_reports_every_image example_library example_working_browser example_session
    (by decide) (by decide)

/-- C12 (the code does not do it): the session `drift_correction` opens for the
single selected image "a", with no point ever placed, makes `on_run_btn_click`
print exactly one entry, and that entry is the conversion of whatever the two
fields held when the entry was built (here the stack content `(0, 0)`): the
pair `(0, 0)`, with no mark of being unset.  It is the same entry the run
prints after the point `(0, 0)` was placed on the image. -/
theorem unset_point_not_flagged :
    ∃ (b : List (Container ExampleField)) (d : DriftCorrectionData Int),
      drift_correction example_library example_browser GTK_RESPONSE_OK [0]
          (fun _ => example_stack) example_stack = some (Outcome.session b d) ∧
      d.selected_images_len = 1 ∧
      on_run_btn_click example_library b d = some [(0, 0)] ∧
      ∃ d0 d1, on_prev_btn_click d = some d0 ∧
        on_selection_finish (0, 0) d0 = some d1 ∧
        on_run_btn_click example_library b d1 = some [(0, 0)] ∧
        on_run_btn_click example_library b d1 = on_run_btn_click example_library b d := by
  refine ⟨_, _, rfl, rfl, ?_, _, _, rfl, rfl, ?_, ?_⟩ <;> decide

/-! ## The active image (C13) -/

theorem on_prev_btn_click_binds {G : Type} (d d1 : DriftCorrectionData G)
    (h : on_prev_btn_click d = some d1) : d1.current_preview_img = some d1.current_preview := by
  unfold on_prev_btn_click at h
  dsimp only at h
  split at h
  · exact absurd h (by simp)
  · simp only [Option.some.injEq] at h
    subst h
    rfl

theorem on_next_btn_click_binds {G : Type} (d d1 : DriftCorrectionData G)
    (h : on_next_btn_click d = some d1) : d1.current_preview_img = some d1.current_preview := by
  unfold on_next_btn_click at h
  dsimp only at h
  split at h
  · exact absurd h (by simp)
  · simp only [Option.some.injEq] at h
    subst h
    rfl

/-- C13 (the code does not do it): in the state `drift_correction` leaves for
the selection of "a" and "c" the cursor is 0 and `current_preview_img` was
never assigned, so it does not refer to `selected_imgs[0]` and a point-selected
event there writes to no image of the selection.  After a click on previous or
on next the pointer refers to the image at the cursor. -/
theorem active_image_fresh_session :
    drift_correction example_library example_browser GTK_RESPONSE_OK [0, 2]
        (fun _ => example_stack) example_stack
      = some (Outcome.session example_working_browser example_session) ∧
    example_session.current_preview = 0 ∧
    example_session.current_preview_img ≠ some example_session.current_preview ∧
    on_selection_finish (10, 20) example_session = none ∧
    (∃ d1, on_prev_btn_click example_session = some d1 ∧
      d1.current_preview_img = some d1.current_preview) ∧
    (∃ d2, on_next_btn_click example_session = some d2 ∧
      d2.current_preview_img = some d2.current_preview) := by
  refine ⟨drift_correction_example, rfl, by decide, rfl, ⟨_, rfl, rfl⟩, ⟨_, rfl, rfl⟩⟩

/-! ## The preview data field (C14) -/

/-- C14, amended: after materialization `preview_datafield_id` is the id the
library returned for the first data field added to the working container `w`,
a duplicate of the first selected image; `selected_imgs[0].img_id` is the id
returned for the second data field added to `w`, another duplicate of the same
image.  The preview and the 0th selected image are the channels 0 and 1 of the
working container, two data fields with the same content. -/
theorem preview_is_separate_duplicate {DF G : Type} (lib : Library DF G)
    (browser : List (Container DF)) (d : DriftCorrectionData G)
    (hok : slots_ok d.selected_imgs d.selected_images_len = true)
    (hlen : 1 ≤ d.selected_images_len)
    (hres : selection_resolves browser d = true) :
    ∃ (w : Container DF) (d1 : DriftCorrectionData G) (first img0 : SelectedImage G)
      (first_df : DF),
      materialize lib browser d = some (browser ++ [w], d1) ∧
      slot_read d.selected_imgs 0 = some first ∧
      original_field browser first = some first_df ∧
      d1.preview_datafield_id = some (lib.new_data_id { w with data := [] }) ∧
      w.data[0]? = some (lib.new_data_id { w with data := [] }, first_df) ∧
      slot_read d1.selected_imgs 0 = some img0 ∧
      img0.img_id = lib.new_data_id { w with data := w.data.take 1 } ∧
      w.data[1]? = some (img0.img_id, first_df) := by
  obtain ⟨first, first_df, added, block, hfirst, hfirst_df, hrun, _, _, hnew⟩ :=
    materialize_spec lib browser d hok hlen hres
  obtain ⟨img, df, h1, h2, h3, h4⟩ := hnew 0 (by omega)
  rw [hfirst] at h1
  simp only [Option.some.injEq] at h1
  subst h1
  rw [hfirst_df] at h2
  simp only [Option.some.injEq] at h2
  subst h2
  refine ⟨{ number := lib.new_container_number browser,
            data := (lib.new_data_id { number := lib.new_container_number browser, data := [] },
              first_df) :: added },
    { d with
      preview_datafield_id := some (lib.new_data_id
        { number := lib.new_container_number browser, data := [] }),
      selected_imgs := block },
    first,
    { first with
      img_id := lib.new_data_id
        { number := lib.new_container_number browser,
          data := (lib.new_data_id { number := lib.new_container_number browser, data := [] },
            first_df) :: added.take 0 },
      container_id := lib.new_container_number browser },
    first_df, hrun, ?_, hfirst_df, rfl, ?_, ?_, ?_, ?_⟩
  · simp [slot_read, hfirst]
  · simp
  · simp [slot_read, h4]
  · simp
  · simpa using h3

theorem preview_is_separate_duplicate_witness :
    ∃ (w : Container ExampleField) (d1 : DriftCorrectionData Int)
      (first img0 : SelectedImage Int) (first_df : ExampleField),
      materialize example_library example_levelled_browser example_selection
        = some (example_levelled_browser ++ [w], d1) ∧
      slot_read example_selection.selected_imgs 0 = some first ∧
      original_field example_levelled_browser first = some first_df ∧
      d1.preview_datafield_id = some (example_library.new_data_id { w with data := [] }) ∧
      w.data[0]? = some (example_library.new_data_id { w with data := [] }, first_df) ∧
      slot_read d1.selected_imgs 0 = some img0 ∧
      img0.img_id = example_library.new_data_id { w with data := w.data.take 1 } ∧
      w.data[1]? = some (img0.img_id, first_df) :=
  preview_is_separate_duplicate example_library example_levelled_browser example_selection
    (by decide) (by decide) (by decide)

/-- C14 as stated fails: after `drift_correction` with "a" and "c" selected the
preview data field has id 0 in the working container and the 0th selected
image has id 1. -/
theorem preview_id_counterexample :
    drift_correction example_library example_browser GTK_RESPONSE_OK [0, 2]
        (fun _ => example_stack) example_stack
      = some (Outcome.session example_working_browser example_session) ∧
    example_session.preview_datafield_id = some 0 ∧
    (slot_read example_session.selected_imgs 0).map (fun img => img.img_id) = some 1 ∧
    ¬ (example_session.preview_datafield_id
        = (slot_read example_session.selected_imgs 0).map (fun img => img.img_id)) := by
  refine ⟨drift_correction_example, rfl, rfl, ?_⟩
  decide

/-! ## Path helpers (C17, C18) -/

/-- C17 (the code does not do it): `dirname` returns `"."` for the empty path and
for a path without separator, the root marker for the single slash, and the
part before the last separator for `ab/c`; but for `a/b`, whose last separator
is at index 1, it returns the root marker instead of `a`, and for `/usr`, whose
last separator is at index 0, it returns the root marker although the path is
not just a single slash. -/
theorem dirname_separator_at_index_one :
    dirname [] = ['.'] ∧
    dirname ['f', 'i', 'l', 'e'] = ['.'] ∧
    dirname [fwd_slash] = [bck_slash] ∧
    dirname ['a', 'b', fwd_slash, 'c'] = ['a', 'b'] ∧
    dirname ['a', fwd_slash, 'b'] = [bck_slash] ∧
    dirname ['a', fwd_slash, 'b'] ≠ ['a'] ∧
    dirname [fwd_slash, 'u', 's', 'r'] = [bck_slash] ∧
    dirname ['a', bck_slash, 'b'] = [bck_slash] := by
  decide

theorem endswith_iff_suffix (str suffix : List Char) :
    endswith str suffix = true ↔ ∃ p, str = p ++ suffix := by
  unfold endswith
  dsimp only
  constructor
  · intro h
    split_ifs at h with hlt
    simp only [decide_eq_true_eq] at h
    refine ⟨str.take (str.length - suffix.length), ?_⟩
    conv_lhs => rw [← List.take_append_drop (str.length - suffix.length) str]
    rw [h]
  · rintro ⟨p, rfl⟩
    have hlen : ¬ (p ++ suffix).length < suffix.length := by
      simp only [List.length_append]; omega
    rw [if_neg hlen]
    simp only [List.length_append, Nat.add_sub_cancel, decide_eq_true_eq]
    exact List.drop_left p suffix

/-- C18: `endswith str suffix` is true exactly when `suffix` is a suffix of `str`
(`str = p ++ suffix` for some `p`); it is true for the empty suffix and false
when `str` is shorter than `suffix`; and the folder scan loads exactly the
directory entries whose name ends in `.mul`. -/
theorem endswith_is_suffix_test (str suffix : List Char) (names : List (List Char))
    (d_name : List Char) :
    (endswith str suffix = true ↔ ∃ p, str = p ++ suffix) ∧
    endswith str [] = true ∧
    (str.length < suffix.length → endswith str suffix = false) ∧
    (d_name ∈ scanned_entries names ↔
      d_name ∈ names ∧ ∃ p, d_name = p ++ ['.', 'm', 'u', 'l']) := by
  refine ⟨endswith_iff_suffix str suffix, ?_, ?_, ?_⟩
  · exact (endswith_iff_suffix str []).2 ⟨str, by simp⟩
  · intro h
    simp [endswith, h]
  · unfold scanned_entries
    rw [List.mem_filter, endswith_iff_suffix]
    rfl

/-! ## Growable arrays (C15) -/

theorem take_succ_of_kept {α : Type} (b b1 : List α) (n : Nat) (x : α)
    (hkept : ∀ i, i < n → b1[i]? = b[i]?) (hnew : b1[n]? = some x) (hn : n ≤ b.length) :
    b1.take (n + 1) = b.take n ++ [x] := by
  apply List.ext_getElem?
  intro i
  by_cases hi : i < n
  · rw [List.getElem?_take_of_lt (by omega), List.getElem?_append_left (by simp; omega),
      List.getElem?_take_of_lt hi, hkept i hi]
  · by_cases hin : i = n
    · subst hin
      rw [List.getElem?_take_of_lt (by omega), hnew,
        List.getElem?_append_right (by simp)]
      simp [Nat.min_eq_left hn]
    · rw [List.getElem?_take_eq_none (by omega), List.getElem?_append_right (by simp; omega)]
      simp [Nat.min_eq_left hn]
      omega

theorem dc_data_append_image_spec {G : Type} (P : SelectedImage G → Bool)
    (d : DriftCorrectionData G) (v : SelectedImage G)
    (hinv : array_inv P d.images d.images_len d.images_cap)
    (hP : P v = true)
    (hsmall : d.images_len + 1 < 1073741824) :
    ∃ d1, dc_data_append_image d v = some d1 ∧
      array_inv P d1.images d1.images_len d1.images_cap ∧
      d1.images_len = d.images_len + 1 ∧
      d1.images_cap = (if d.images_len + 1 = d.images_cap then d.images_cap * 2
        else d.images_cap) ∧
      (∀ i : Nat, i < d.images_len.toNat → d1.images[i]? = d.images[i]?) ∧
      d1.images[d.images_len.toNat]? = some (some v) := by
  obtain ⟨hw, hlen, hfull, hroom, hold, hnew1, hnew2⟩ :=
    array_inv_grow P d.images d.images_len d.images_cap v hinv hP hsmall
  unfold dc_data_append_image
  rw [hw]
  dsimp only
  rw [hlen]
  by_cases hcap : d.images_len + 1 = d.images_cap
  · obtain ⟨h32, hinv2⟩ := hfull hcap
    rw [if_pos hcap, h32, if_pos hcap]
    exact ⟨_, rfl, hinv2, rfl, rfl, fun i hi => (hold i hi).1, hnew1⟩
  · rw [if_neg hcap, if_neg hcap]
    exact ⟨_, rfl, hroom hcap, rfl, rfl, fun i hi => (hold i hi).2, hnew2⟩

theorem append_images_spec {G : Type} (vs : List (SelectedImage G)) :
    ∀ d : DriftCorrectionData G,
      array_inv (fun _ => true) d.images d.images_len d.images_cap →
      d.images_len + vs.length < 1073741824 →
      ∃ d1, append_images vs d = some d1 ∧
        array_inv (fun _ => true) d1.images d1.images_len d1.images_cap ∧
        d1.images_len = d.images_len + vs.length ∧
        d1.images.take d1.images_len.toNat = d.images.take d.images_len.toNat ++ vs.map some ∧
        (d.images_cap = capacity_after d.images_len.toNat →
          d1.images_cap = capacity_after d1.images_len.toNat) := by
  induction vs with
  | nil =>
    intro d hinv _
    exact ⟨d, rfl, hinv, by simp, by simp, fun h => h⟩
  | cons v rest ih =>
    intro d hinv hsmall
    simp only [List.length_cons, Nat.cast_add, Nat.cast_one] at hsmall
    obtain ⟨d1, h1, hinv1, hlen1, hcap1, hold1, hnew1⟩ :=
      dc_data_append_image_spec (fun _ => true) d v hinv rfl (by omega)
    obtain ⟨d2, h2, hinv2, hlen2, htake2, hcap2⟩ := ih d1 hinv1 (by omega)
    have h0 : 0 ≤ d.images_len := hinv.1
    have hb : d.images_len.toNat ≤ d.images.length := by
      have := hinv.2.1
      have := hinv.2.2.1
      omega
    have hstep : d1.images.take d1.images_len.toNat
        = d.images.take d.images_len.toNat ++ [some v] := by
      have hn : d1.images_len.toNat = d.images_len.toNat + 1 := by omega
      rw [hn]
      exact take_succ_of_kept _ _ _ _ hold1 hnew1 hb
    refine ⟨d2, ?_, hinv2, ?_, ?_, ?_⟩
    · simp only [append_images, h1]
      exact h2
    · rw [hlen2, hlen1]
      simp only [List.length_cons, Nat.cast_add, Nat.cast_one]
      omega
    · rw [htake2, hstep]
      simp
    · intro hcap
      apply hcap2
      rw [hcap1]
      have hn : d1.images_len.toNat = d.images_len.toNat + 1 := by omega
      rw [hn, capacity_after, ← hcap]
      have hcast : ((d.images_len.toNat + 1 : Nat) : Int) = d.images_len + 1 := by
        push_cast
        omega
      rw [hcast]

theorem dc_data_append_selected_images_step {G : Type}
    (store : List StoreRow) (tree_path : Nat) (stack : G × G) (d : DriftCorrectionData G)
    (row : StoreRow) (hrow : store[tree_path]? = some row)
    (hinv : array_inv (fun _ => true) d.selected_imgs d.selected_images_len
      d.selected_images_cap)
    (hsmall : d.selected_images_len + 1 < 1073741824) :
    ∃ d1, dc_data_append_selected_images store tree_path stack d = some d1 ∧
      array_inv (fun _ => true) d1.selected_imgs d1.selected_images_len
        d1.selected_images_cap ∧
      d1.selected_images_len = d.selected_images_len + 1 ∧
      d1.selected_images_cap = (if d.selected_images_len + 1 = d.selected_images_cap
        then d.selected_images_cap * 2 else d.selected_images_cap) ∧
      (∀ i : Nat, i < d.selected_images_len.toNat →
        d1.selected_imgs[i]? = d.selected_imgs[i]?) ∧
      d1.selected_imgs[d.selected_images_len.toNat]? =
        some (some { container_id := row.container_id, img_id := row.img_id,
                     x_selection := stack.1, y_selection := stack.2 }) := by
  obtain ⟨hw, hlen, hfull, hroom, hold, hnew1, hnew2⟩ :=
    array_inv_grow (fun _ => true) d.selected_imgs d.selected_images_len d.selected_images_cap
      { container_id := row.container_id, img_id := row.img_id,
        x_selection := stack.1, y_selection := stack.2 } hinv rfl hsmall
  unfold dc_data_append_selected_images
  rw [hrow]
  dsimp only
  rw [hw]
  dsimp only
  rw [hlen]
  by_cases hcap : d.selected_images_len + 1 = d.selected_images_cap
  · obtain ⟨h32, hinv2⟩ := hfull hcap
    rw [if_pos hcap, h32, if_pos hcap]
    exact ⟨_, rfl, hinv2, rfl, rfl, fun i hi => (hold i hi).1, hnew1⟩
  · rw [if_neg hcap, if_neg hcap]
    exact ⟨_, rfl, hroom hcap, rfl, rfl, fun i hi => (hold i hi).2, hnew2⟩

theorem selected_foreach_holds {G : Type} (store : List StoreRow) (stack : Nat → G × G)
    (selected : List Nat) :
    ∀ (j : Nat) (d : DriftCorrectionData G),
      (∀ p ∈ selected, p < store.length) →
      array_inv (fun _ => true) d.selected_imgs d.selected_images_len
        d.selected_images_cap →
      d.selected_images_len + selected.length < 1073741824 →
      ∃ d1, selected_foreach store stack selected j d = some d1 ∧
        array_inv (fun _ => true) d1.selected_imgs d1.selected_images_len
          d1.selected_images_cap ∧
        d1.selected_images_len = d.selected_images_len + selected.length ∧
        (selected_entries store stack selected j).length = selected.length ∧
        d1.selected_imgs.take d1.selected_images_len.toNat
          = d.selected_imgs.take d.selected_images_len.toNat
            ++ (selected_entries store stack selected j).map some ∧
        (d.selected_images_cap = capacity_after d.selected_images_len.toNat →
          d1.selected_images_cap = capacity_after d1.selected_images_len.toNat) := by
  induction selected with
  | nil =>
    intro j d _ hinv _
    exact ⟨d, rfl, hinv, by simp, rfl, by simp [selected_entries], fun h => h⟩
  | cons p rest ih =>
    intro j d hrows hinv hsmall
    simp only [List.length_cons, Nat.cast_add, Nat.cast_one] at hsmall
    have hp : p < store.length := hrows p (List.mem_cons_self _ _)
    have hrow : store[p]? = some store[p] := List.getElem?_eq_getElem hp
    obtain ⟨d1, h1, hinv1, hlen1, hcap1, hold1, hnew1⟩ :=
      dc_data_append_selected_images_step store p (stack j) d store[p] hrow hinv (by omega)
    obtain ⟨d2, h2, hinv2, hlen2, hcount2, htake2, hcap2⟩ := ih (j + 1) d1
      (fun q hq => hrows q (List.mem_cons_of_mem _ hq)) hinv1 (by omega)
    have h0 : 0 ≤ d.selected_images_len := hinv.1
    have hb : d.selected_images_len.toNat ≤ d.selected_imgs.length := by
      have := hinv.2.1
      have := hinv.2.2.1
      omega
    have hn : d1.selected_images_len.toNat = d.selected_images_len.toNat + 1 := by omega
    have hstep : d1.selected_imgs.take d1.selected_images_len.toNat
        = d.selected_imgs.take d.selected_images_len.toNat
          ++ [some { container_id := store[p].container_id, img_id := store[p].img_id,
                      x_selection := (stack j).1, y_selection := (stack j).2 }] := by
      rw [hn]
      exact take_succ_of_kept _ _ _ _ hold1 hnew1 hb
    refine ⟨d2, ?_, hinv2, ?_, ?_, ?_, ?_⟩
    · simp only [selected_foreach, h1]
      exact h2
    · rw [hlen2, hlen1]
      simp only [List.length_cons, Nat.cast_add, Nat.cast_one]
      omega
    · simp only [selected_entries, hrow, List.length_cons, hcount2]
    · rw [htake2, hstep]
      simp only [selected_entries, hrow, List.map_cons, List.append_assoc, List.singleton_append]
    · intro hcap
      apply hcap2
      rw [hcap1, hn, capacity_after, ← hcap]
      have hcast : ((d.selected_images_len.toNat + 1 : Nat) : Int)
          = d.selected_images_len + 1 := by
        push_cast
        omega
      rw [hcast]

theorem dc_data_new_arrays (G : Type) :
    array_inv (fun _ => true) (dc_data_new G).images (dc_data_new G).images_len
        (dc_data_new G).images_cap ∧
      array_inv (fun _ => true) (dc_data_new G).selected_imgs
        (dc_data_new G).selected_images_len (dc_data_new G).selected_images_cap := by
  simp only [dc_data_new]
  exact ⟨⟨le_refl _, by omega, by simp, fun i hi => absurd hi (by simp)⟩,
    ⟨le_refl _, by omega, by simp, fun i hi => absurd hi (by simp)⟩⟩

theorem capacity_after_shape (n : Nat) :
    ∃ j : Nat, capacity_after n = 32 * 2 ^ j ∧ (n : Int) < capacity_after n ∧
      (j = 0 ∨ capacity_after n ≤ 2 * (n : Int)) := by
  induction n with
  | zero => exact ⟨0, by simp [capacity_after], by simp [capacity_after], Or.inl rfl⟩
  | succ n ih =>
    obtain ⟨j, hj, hlt, hor⟩ := ih
    rw [capacity_after]
    by_cases hfull : ((n + 1 : Nat) : Int) = capacity_after n
    · rw [if_pos hfull]
      refine ⟨j + 1, ?_, ?_, Or.inr ?_⟩
      · rw [hj, pow_succ]; ring
      · omega
      · omega
    · rw [if_neg hfull]
      refine ⟨j, hj, ?_, ?_⟩
      · push_cast at hfull ⊢; omega
      · rcases hor with h | h
        · exact Or.inl h
        · right; push_cast; omega

theorem capacity_after_limit : capacity_after 1073741823 = 1073741824 := by
  obtain ⟨j, hj, hlt, hor⟩ := capacity_after_shape 1073741823
  have hj25 : j = 25 := by
    by_contra hne
    rcases Nat.lt_or_gt_of_ne hne with h | h
    · have hp : (2 : Int) ^ j ≤ 2 ^ 24 := pow_le_pow_right₀ (by norm_num) (by omega)
      norm_num at hp
      rw [hj] at hlt
      push_cast at hlt
      omega
    · have hp : (2 : Int) ^ 26 ≤ 2 ^ j := pow_le_pow_right₀ (by norm_num) (by omega)
      norm_num at hp
      rcases hor with h0 | hle
      · omega
      · rw [hj] at hle
        push_cast at hle
        omega
  rw [hj, hj25]
  norm_num

theorem append_images_append {G : Type} (l1 l2 : List (SelectedImage G)) :
    ∀ d : DriftCorrectionData G,
      append_images (l1 ++ l2) d = (append_images l1 d).bind (append_images l2) := by
  induction l1 with
  | nil => intro d; rfl
  | cons v rest ih =>
    intro d
    simp only [List.cons_append, append_images]
    cases dc_data_append_image d v with
    | none => rfl
    | some d1 => exact ih d1

theorem append_images_overflow {G : Type} (vs : List (SelectedImage G))
    (hlen : vs.length = 1073741824) :
    ∃ d1, append_images vs (dc_data_new G) = some d1 ∧
      d1.images_len = 1073741824 ∧ d1.images_cap = -2147483648 ∧ d1.images = [] := by
  have hne : vs ≠ [] := by
    intro h
    rw [h] at hlen
    simp at hlen
  have hsplit := List.dropLast_append_getLast hne
  have hl : vs.dropLast.length = 1073741823 := by
    rw [List.length_dropLast, hlen]
  obtain ⟨d, hd, hinv, hdlen, _, hdcap⟩ := append_images_spec vs.dropLast (dc_data_new G)
    (dc_data_new_arrays G).1 (by
      rw [hl]
      show (0 : Int) + ((1073741823 : Nat) : Int) < 1073741824
      norm_num)
  have hlen_d : d.images_len = 1073741823 := by
    rw [hdlen, hl]
    show (0 : Int) + ((1073741823 : Nat) : Int) = 1073741823
    norm_num
  have hcap_d : d.images_cap = 1073741824 := by
    have h := hdcap rfl
    rw [hlen_d] at h
    rw [h]
    exact capacity_after_limit
  have hw : slot_write d.images d.images_len (vs.getLast hne)
      = some (d.images.set d.images_len.toNat (some (vs.getLast hne))) := by
    have hblock := hinv.2.2.1
    rw [hcap_d] at hblock
    have hb : d.images_len.toNat < d.images.length := by
      rw [hblock, hlen_d]
      norm_num
    have h0 : 0 ≤ d.images_len := hinv.1
    simp [slot_write, h0, hb]
  have hi1 : int32 (1073741823 + 1) = 1073741824 := by norm_num [int32]
  have hi2 : int32 (1073741824 * 2) = -2147483648 := by norm_num [int32]
  have hlast : dc_data_append_image d (vs.getLast hne)
      = some { d with
          images := c_realloc (d.images.set d.images_len.toNat (some (vs.getLast hne)))
            (-2147483648)
          images_len := 1073741824
          images_cap := -2147483648 } := by
    unfold dc_data_append_image
    rw [hw]
    dsimp only
    rw [hlen_d, hcap_d, hi1, hi2, if_pos rfl]
  refine ⟨{ d with
      images := c_realloc (d.images.set d.images_len.toNat (some (vs.getLast hne)))
        (-2147483648),
      images_len := 1073741824,
      images_cap := -2147483648 }, ?_, rfl, rfl, ?_⟩
  · have hrun : append_images (vs.dropLast ++ [vs.getLast hne]) (dc_data_new G)
        = some { d with
            images := c_realloc (d.images.set d.images_len.toNat (some (vs.getLast hne)))
              (-2147483648),
            images_len := 1073741824,
            images_cap := -2147483648 } := by
      rw [append_images_append, hd, Option.some_bind]
      simp only [append_images, hlast]
    rw [hsplit] at hrun
    exact hrun
  · show c_realloc _ (-2147483648) = []
    unfold c_realloc
    simp

/-- C15, amended: from the arrays as `drift_correction` allocates them (length
0, capacity 32), after any number `n < 2^30` of appends with
`dc_data_append_image`, and likewise with the callback
`dc_data_append_selected_images`, the appends all return, the array holds
exactly the `n` appended elements in the order of the appends, `len = n`,
`len < cap` with `cap` slots allocated (so the next write at index `len` is in
bounds), and the capacity is the one obtained from 32 by doubling exactly when
the length reaches the capacity. -/
theorem growable_array_append {G : Type} (vs : List (SelectedImage G))
    (store : List StoreRow) (selected : List Nat) (stack : Nat → G × G)
    (hn : vs.length < 1073741824)
    (hrows : ∀ p ∈ selected, p < store.length)
    (hm : selected.length < 1073741824) :
    (∃ d, append_images vs (dc_data_new G) = some d ∧
      d.images_len = vs.length ∧
      d.images.take vs.length = vs.map some ∧
      d.images_len < d.images_cap ∧
      d.images.length = d.images_cap.toNat ∧
      d.images_cap = capacity_after vs.length ∧
      ∀ v, (slot_write d.images d.images_len v).isSome = true) ∧
    (∃ d, selected_foreach store stack selected 0 (dc_data_new G) = some d ∧
      d.selected_images_len = selected.length ∧
      (selected_entries store stack selected 0).length = selected.length ∧
      d.selected_imgs.take selected.length
        = (selected_entries store stack selected 0).map some ∧
      d.selected_images_len < d.selected_images_cap ∧
      d.selected_imgs.length = d.selected_images_cap.toNat ∧
      d.selected_images_cap = capacity_after selected.length ∧
      ∀ v, (slot_write d.selected_imgs d.selected_images_len v).isSome = true) := by
  constructor
  · obtain ⟨d, hd, hinv, hlen, htake, hcap⟩ := append_images_spec vs (dc_data_new G)
      (dc_data_new_arrays G).1 (by
        show (0 : Int) + (vs.length : Int) < 1073741824
        omega)
    have hlen2 : d.images_len = vs.length := by
      rw [hlen]
      show (0 : Int) + (vs.length : Int) = vs.length
      omega
    refine ⟨d, hd, hlen2, ?_, hinv.2.1, hinv.2.2.1, ?_, fun v => ?_⟩
    · rw [hlen2] at htake
      simpa [dc_data_new] using htake
    · have h := hcap rfl
      rw [hlen2] at h
      simpa using h
    · have hb : d.images_len.toNat < d.images.length := by
        have := hinv.2.1
        have := hinv.2.2.1
        have := hinv.1
        omega
      simp [slot_write, hinv.1, hb]
  · obtain ⟨d, hd, hinv, hlen, hcount, htake, hcap⟩ :=
      selected_foreach_holds store stack selected 0 (dc_data_new G) hrows
        (dc_data_new_arrays G).2 (by
          show (0 : Int) + (selected.length : Int) < 1073741824
          omega)
    have hlen2 : d.selected_images_len = selected.length := by
      rw [hlen]
      show (0 : Int) + (selected.length : Int) = selected.length
      omega
    refine ⟨d, hd, hlen2, hcount, ?_, hinv.2.1, hinv.2.2.1, ?_, fun v => ?_⟩
    · rw [hlen2] at htake
      simpa [dc_data_new] using htake
    · have h := hcap rfl
      rw [hlen2] at h
      simpa using h
    · have hb : d.selected_images_len.toNat < d.selected_imgs.length := by
        have := hinv.2.1
        have := hinv.2.2.1
        have := hinv.1
        omega
      simp [slot_write, hinv.1, hb]

theorem growable_array_append_witness :
    (∃ d, append_images example_images (dc_data_new Int) = some d ∧
      d.images_len = example_images.length ∧
      d.images.take example_images.length = example_images.map some ∧
      d.images_len < d.images_cap ∧
      d.images.length = d.images_cap.toNat ∧
      d.images_cap = capacity_after example_images.length ∧
      ∀ v, (slot_write d.images d.images_len v).isSome = true) ∧
    (∃ d, selected_foreach example_store example_stack [0, 2] 0 (dc_data_new Int) = some d ∧
      d.selected_images_len = ([0, 2] : List Nat).length ∧
      (selected_entries example_store example_stack [0, 2] 0).length
        = ([0, 2] : List Nat).length ∧
      d.selected_imgs.take ([0, 2] : List Nat).length
        = (selected_entries example_store example_stack [0, 2] 0).map some ∧
      d.selected_images_len < d.selected_images_cap ∧
      d.selected_imgs.length = d.selected_images_cap.toNat ∧
      d.selected_images_cap = capacity_after ([0, 2] : List Nat).length ∧
      ∀ v, (slot_write d.selected_imgs d.selected_images_len v).isSome = true) :=
  growable_array_append example_images example_store [0, 2] example_stack
    (by decide) (by decide) (by decide)

/-- C15 as stated fails: after 1073741824 appends the length has reached the
capacity 1073741824, the doubling `cap *= 2` has left the range of `int`, and
`len < cap` no longer holds; the array holds none of the appended elements. -/
theorem growable_array_counterexample :
    ∃ d1 : DriftCorrectionData Int,
      append_images
          (List.replicate 1073741824
            ({ container_id := 1, img_id := 0, x_selection := 0, y_selection := 0 } :
              SelectedImage Int))
          (dc_data_new Int) = some d1 ∧
      d1.images_len = 1073741824 ∧
      d1.images_cap = -2147483648 ∧
      d1.images = [] ∧
      ¬ (d1.images_len < d1.images_cap) := by
  obtain ⟨d1, h1, h2, h3, h4⟩ := append_images_overflow
    (List.replicate 1073741824
      ({ container_id := 1, img_id := 0, x_selection := 0, y_selection := 0 } :
        SelectedImage Int))
    (List.length_replicate _ _)
  refine ⟨d1, h1, h2, h3, h4, ?_⟩
  rw [h2, h3]
  norm_num

/-! ## The snapshot of all open images (C16) -/

theorem setup_dc_data_loop_eq {G : Type} (container_id : Int) (stack : Nat → G × G)
    (ids : List Int) :
    ∀ (i : Nat) (d : DriftCorrectionData G), (∀ id ∈ ids, id ≠ -1) →
      setup_dc_data_loop container_id stack (ids ++ [-1]) i d
        = append_images (loop_entries container_id stack ids i) d := by
  induction ids with
  | nil =>
    intro i d _
    simp [setup_dc_data_loop, loop_entries, append_images]
  | cons id rest ih =>
    intro i d hids
    have hid : id ≠ -1 := hids id (List.mem_cons_self _ _)
    simp only [List.cons_append, setup_dc_data_loop, if_neg hid, loop_entries, append_images]
    cases dc_data_append_image d _ with
    | none => rfl
    | some d1 => exact ih (i + 1) d1 (fun x hx => hids x (List.mem_cons_of_mem _ hx))

theorem loop_entries_refs {G : Type} (container_id : Int) (stack : Nat → G × G)
    (ids : List Int) :
    ∀ i : Nat, (loop_entries container_id stack ids i).map
        (fun img => (img.container_id, img.img_id)) = ids.map (fun id => (container_id, id)) ∧
      (loop_entries container_id stack ids i).length = ids.length := by
  induction ids with
  | nil => intro i; exact ⟨rfl, rfl⟩
  | cons id rest ih =>
    intro i
    obtain ⟨h1, h2⟩ := ih (i + 1)
    simp only [loop_entries, List.map_cons, List.length_cons, h1, h2, and_self]

theorem image_refs_append {G : Type} (block block1 : List (Option (SelectedImage G)))
    (len len1 : Int) (vs : List (SelectedImage G))
    (h : block1.take len1.toNat = block.take len.toNat ++ vs.map some) :
    image_refs block1 len1
      = image_refs block len ++ vs.map (fun img => (img.container_id, img.img_id)) := by
  unfold image_refs
  rw [h, List.filterMap_append]
  congr 1
  induction vs with
  | nil => rfl
  | cons v rest ih => simp [List.filterMap_cons, ih]

theorem kept_of_take_append {α : Type} (block block1 : List α) (n n1 : Nat) (extra : List α)
    (hn : n ≤ block.length) (hn1 : n ≤ n1)
    (h : block1.take n1 = block.take n ++ extra) (i : Nat) (hi : i < n) :
    block1[i]? = block[i]? := by
  have h1 : (block1.take n1)[i]? = block1[i]? := List.getElem?_take_of_lt (by omega)
  rw [← h1, h, List.getElem?_append_left (by simp; omega), List.getElem?_take_of_lt hi]

theorem setup_dc_data_spec {DF G : Type} (container : Container DF) (stack : Nat → G × G)
    (d : DriftCorrectionData G)
    (hinv : array_inv (fun _ => true) d.images d.images_len d.images_cap)
    (hids : ∀ e ∈ container.data, e.1 ≠ -1)
    (hroom : d.images_len + container.data.length < 1073741824) :
    ∃ d1, setup_dc_data container stack d = some d1 ∧
      array_inv (fun _ => true) d1.images d1.images_len d1.images_cap ∧
      d1.images_len = d.images_len + container.data.length ∧
      image_refs d1.images d1.images_len
        = image_refs d.images d.images_len
          ++ container.data.map (fun e => (container.number, e.1)) ∧
      ∀ i : Nat, i < d.images_len.toNat → d1.images[i]? = d.images[i]? := by
  have hids2 : ∀ id ∈ container.data.map Prod.fst, id ≠ -1 := by
    intro id hid
    obtain ⟨e, he, rfl⟩ := List.mem_map.1 hid
    exact hids e he
  obtain ⟨hrefs, hcount⟩ :=
    loop_entries_refs container.number stack (container.data.map Prod.fst) 0
  rw [List.length_map] at hcount
  obtain ⟨d1, h1, hinv1, hlen1, htake1, _⟩ := append_images_spec
    (loop_entries container.number stack (container.data.map Prod.fst) 0) d hinv
    (by rw [hcount]; exact hroom)
  have hb : d.images_len.toNat ≤ d.images.length := by
    have := hinv.1
    have := hinv.2.1
    have := hinv.2.2.1
    omega
  have h0 := hinv.1
  refine ⟨d1, ?_, hinv1, by rw [hlen1, hcount], ?_, fun i hi => ?_⟩
  · unfold setup_dc_data gwy_app_data_browser_get_data_ids
    rw [setup_dc_data_loop_eq _ _ _ _ _ hids2]
    exact h1
  · rw [image_refs_append _ _ _ _ _ htake1, hrefs, List.map_map]
    rfl
  · exact kept_of_take_append _ _ _ _ _ hb (by omega) htake1 i hi

theorem collect_images_spec {DF G : Type} (stack : Nat → Nat → G × G)
    (browser : List (Container DF)) :
    ∀ (j : Nat) (d : DriftCorrectionData G),
      array_inv (fun _ => true) d.images d.images_len d.images_cap →
      (∀ c ∈ browser, ∀ e ∈ c.data, e.1 ≠ -1) →
      d.images_len + (open_images browser).length < 1073741824 →
      ∃ d1, collect_images stack browser j d = some d1 ∧
        array_inv (fun _ => true) d1.images d1.images_len d1.images_cap ∧
        d1.images_len = d.images_len + (open_images browser).length ∧
        image_refs d1.images d1.images_len
          = image_refs d.images d.images_len ++ open_images browser ∧
        ∀ i : Nat, i < d.images_len.toNat → d1.images[i]? = d.images[i]? := by
  induction browser with
  | nil =>
    intro j d hinv _ _
    exact ⟨d, rfl, hinv, by simp [open_images], by simp [open_images], fun _ _ => rfl⟩
  | cons c rest ih =>
    intro j d hinv hids hroom
    have hopen : open_images (c :: rest)
        = c.data.map (fun e => (c.number, e.1)) ++ open_images rest := by
      simp [open_images]
    rw [hopen, List.length_append, List.length_map] at hroom
    push_cast at hroom
    obtain ⟨d1, h1, hinv1, hlen1, hrefs1, hkept1⟩ := setup_dc_data_spec c (stack j) d hinv
      (hids c (List.mem_cons_self _ _)) (by omega)
    obtain ⟨d2, h2, hinv2, hlen2, hrefs2, hkept2⟩ := ih (j + 1) d1 hinv1
      (fun c2 hc2 => hids c2 (List.mem_cons_of_mem _ hc2)) (by omega)
    have h0 := hinv.1
    refine ⟨d2, ?_, hinv2, ?_, ?_, fun i hi => ?_⟩
    · simp only [collect_images, h1]
      exact h2
    · rw [hlen2, hlen1, hopen, List.length_append, List.length_map]
      push_cast
      omega
    · rw [hrefs2, hrefs1, hopen, List.append_assoc]
    · rw [hkept2 i (by omega), hkept1 i hi]

/-- C16: the snapshot is complete and ordered.  For a container with number `c`
whose channel ids `d_0, ..., d_{k-1}` are all other than the sentinel `-1`, and
an array `images` that satisfies the invariant of the growable array with the
`k` new elements below the limit of C15, `setup_dc_data` returns, appends
exactly the references `(c, d_0), ..., (c, d_{k-1})` in that order and leaves
the elements already there as they were.  So, from the record
`drift_correction` allocates, the enumeration of all open containers leaves in
`images` the references of all open images, each channel of each container
once, container by container in the order of the enumeration. -/
theorem snapshot_complete_ordered {DF G : Type} (container : Container DF)
    (browser : List (Container DF)) (stack : Nat → G × G) (stack_all : Nat → Nat → G × G)
    (d : DriftCorrectionData G)
    (hinv : array_inv (fun _ => true) d.images d.images_len d.images_cap)
    (hids : ∀ e ∈ container.data, e.1 ≠ -1)
    (hroom : d.images_len + container.data.length < 1073741824)
    (hids_all : ∀ c ∈ browser, ∀ e ∈ c.data, e.1 ≠ -1)
    (hroom_all : (open_images browser).length < 1073741824) :
    (∃ d1, setup_dc_data container stack d = some d1 ∧
      d1.images_len = d.images_len + container.data.length ∧
      image_refs d1.images d1.images_len
        = image_refs d.images d.images_len
          ++ container.data.map (fun e => (container.number, e.1)) ∧
      ∀ i : Nat, i < d.images_len.toNat → d1.images[i]? = d.images[i]?) ∧
    (∃ d2, collect_images stack_all browser 0 (dc_data_new G) = some d2 ∧
      d2.images_len = (open_images browser).length ∧
      image_refs d2.images d2.images_len = open_images browser) := by
  constructor
  · obtain ⟨d1, h1, _, hlen1, hrefs1, hkept1⟩ :=
      setup_dc_data_spec container stack d hinv hids hroom
    exact ⟨d1, h1, hlen1, hrefs1, hkept1⟩
  · obtain ⟨d2, h2, _, hlen2, hrefs2, _⟩ := collect_images_spec stack_all browser 0
      (dc_data_new G) (dc_data_new_arrays G).1 hids_all (by
        show (0 : Int) + ((open_images browser).length : Int) < 1073741824
        omega)
    refine ⟨d2, h2, ?_, ?_⟩
    · rw [hlen2]
      show (0 : Int) + ((open_images browser).length : Int) = _
      omega
    · rw [hrefs2]
      simp [image_refs, dc_data_new]

theorem snapshot_complete_ordered_witness :
    (∃ d1, setup_dc_data example_container example_stack (dc_data_new Int) = some d1 ∧
      d1.images_len = (dc_data_new Int).images_len + (example_container.data.length : Int) ∧
      image_refs d1.images d1.images_len
        = image_refs (dc_data_new Int).images (dc_data_new Int).images_len
          ++ example_container.data.map (fun e => (example_container.number, e.1)) ∧
      ∀ i : Nat, i < (dc_data_new Int).images_len.toNat →
        d1.images[i]? = (dc_data_new Int).images[i]?) ∧
    (∃ d2, collect_images (fun _ => example_stack) example_browser 0 (dc_data_new Int)
        = some d2 ∧
      d2.images_len = (open_images example_browser).length ∧
      image_refs d2.images d2.images_len = open_images example_browser) :=
  snapshot_complete_ordered example_container example_browser example_stack
    (fun _ => example_stack) (dc_data_new Int) (dc_data_new_arrays Int).1 (by decide) (by decide) (by decide) (by decide)

end ZModule
